import Mathlib

/-!
Azure cluster discovery (`pkg/providers/azure/azure.go`).

A shallow embedding of the Azure provider of the cluster-reflector-controller:
`NewAzureProvider`, `AzureProvider.ListClusters`, `getKubeconfigForCluster` and
`aksClusterResourceGroup`, together with the properties of its discovery protocol.

Conventions of the embedding

* A Go pointer or slice that may be nil is an `Option`; `none` is nil.
* A Go function returning `(T, error)` returns `GoResult.ret val err`; a runtime panic
  (nil dereference, index out of range) is `GoResult.panic`.
* An `error` is represented by its message (the text `%v` prints).
* The collaborators outside the package (the Azure SDK, go-autorest, client-go) are the
  fields of a `Backend`. Every call to one of them is recorded, with its outcome, in the
  list of `Event`s the embedded functions return next to their result.
* The context argument only carries cancellation; a cancelled or timed-out call is a
  failing call of the backend.
-/

namespace Azure

/-! ## Data model -/

/-- The bytes of a credential payload (`[]byte`). -/
abbrev Bytes := List Nat

/-- The part of `armcontainerservice.ManagedCluster` the provider reads: the pointer
fields `ID` and `Name`. -/
structure ManagedCluster where
  ID : Option String
  Name : Option String
  deriving DecidableEq, Repr

/-- One entry of the admin-credential response, `armcontainerservice.CredentialResult`. -/
structure CredentialResult where
  Name : Option String
  Value : Bytes
  deriving DecidableEq, Repr

/-- The admin-credential response, `armcontainerservice.CredentialResults`:
`Kubeconfigs` is a slice of pointers, `none` being the nil slice. -/
structure CredentialResults where
  Kubeconfigs : Option (List (Option CredentialResult))
  deriving DecidableEq, Repr

/-- The result of `azure.ParseResourceID`, `azure.Resource`. -/
structure Resource where
  SubscriptionID : String
  ResourceGroup : String
  Provider : String
  ResourceType : String
  ResourceName : String
  deriving DecidableEq, Repr

/-- The public output unit, `providers.ProviderCluster`; `Config` stands for
`clientcmdapi.Config`. -/
structure ProviderCluster (Config : Type) where
  Name : String
  KubeConfig : Option Config
  deriving DecidableEq, Repr

/-- The provider: its only field is the subscription identifier. -/
structure AzureProvider where
  SubscriptionID : String
  deriving DecidableEq, Repr

/-- The handle returned by `azidentity.NewDefaultAzureCredential`. -/
structure DefaultAzureCredential where
  deriving DecidableEq, Repr

/-- The client returned by `armcontainerservice.NewManagedClustersClient`, bound to the
subscription it was built for. -/
structure ManagedClustersClient where
  subscriptionID : String
  deriving DecidableEq, Repr

/-- The outcome of a Go function of type `(α, error)`: a normal return of the pair, or a
runtime panic. -/
inductive GoResult (α : Type) where
  | ret (val : α) (err : Option String)
  | panic (msg : String)
  deriving DecidableEq, Repr

/-- The text of the runtime error of a nil pointer dereference. -/
def nilDereference : String := "invalid memory address or nil pointer dereference"

/-- The text of the runtime error of `s[0]` on a slice of length 0. -/
def indexOutOfRange : String := "index out of range [0] with length 0"

/-! ## The collaborators and the record of calls -/

/-- One page of the listing: `nextResult.Value`, a slice of pointers to descriptors. -/
abbrev Page := List (Option ManagedCluster)

/-- The collaborators of the provider. `pages` is what the pager of a fresh
`client.NewListPager(nil)` yields: `More()` holds while pages remain and `NextPage`
takes the next one, a page or a fetch failure. -/
structure Backend (Config : Type) where
  NewDefaultAzureCredential : Except String DefaultAzureCredential
  NewManagedClustersClient : String → DefaultAzureCredential → Except String ManagedClustersClient
  pages : ManagedClustersClient → List (Except String Page)
  ParseResourceID : String → Except String Resource
  ListClusterAdminCredentials : ManagedClustersClient → String → String → Except String CredentialResults
  Load : Bytes → Except String Config

/-- A call to a collaborator. -/
inductive Call where
  | newDefaultAzureCredential
  | newManagedClustersClient (subscriptionID : String)
  | nextPage
  | parseResourceID (clusterID : String)
  | listClusterAdminCredentials (resourceGroup : String) (name : String)
  | load (bytes : Bytes)
  deriving DecidableEq, Repr

/-- A call with its outcome: `err` is the error the call returned, if any. -/
structure Event where
  call : Call
  err : Option String
  deriving DecidableEq, Repr

/-- The error of a collaborator's result. -/
def errorOf {α : Type} : Except String α → Option String
  | .error e => some e
  | .ok _ => none

/-! ## The program -/

/-- `NewAzureProvider` stores the subscription identifier. -/
def NewAzureProvider (subscriptionID : String) : AzureProvider :=
  { SubscriptionID := subscriptionID }

/-- `aksClusterResourceGroup`: the resource group of a cluster identifier, as a Go pair
`(string, error)`. -/
def aksClusterResourceGroup (ParseResourceID : String → Except String Resource)
    (clusterID : String) : String × Option String :=
  match ParseResourceID clusterID with
  | .error err => ("", some ("failed to parse cluster resource group from id: " ++ err))
  | .ok resource => (resource.ResourceGroup, none)

/-- `getKubeconfigForCluster`: the result and the calls issued. -/
def getKubeconfigForCluster {Config : Type} (b : Backend Config) (client : ManagedClustersClient)
    (aksCluster : Option ManagedCluster) : GoResult (Option Config) × List Event :=
  match aksCluster with
  | none => (.panic nilDereference, [])
  | some c =>
    match c.ID with
    | none => (.panic nilDereference, [])
    | some id =>
      let parsed : Event := ⟨.parseResourceID id, errorOf (b.ParseResourceID id)⟩
      match aksClusterResourceGroup b.ParseResourceID id with
      | (_, some err) =>
        (.ret none (some ("failed to get cluster resource group: " ++ err)), [parsed])
      | (resourceGroup, none) =>
        match c.Name with
        | none => (.panic nilDereference, [parsed])
        | some name =>
          let fetch : Call := .listClusterAdminCredentials resourceGroup name
          match b.ListClusterAdminCredentials client resourceGroup name with
          | .error err =>
            (.ret none (some ("failed to get cluster credentials: " ++ err)),
              [parsed, ⟨fetch, some err⟩])
          | .ok credentialsResponse =>
            match credentialsResponse.Kubeconfigs with
            | none => (.ret none none, [parsed, ⟨fetch, none⟩])
            | some [] => (.panic indexOutOfRange, [parsed, ⟨fetch, none⟩])
            | some (none :: _) => (.panic nilDereference, [parsed, ⟨fetch, none⟩])
            | some (some first :: _) =>
              match b.Load first.Value with
              | .error err =>
                (.ret none (some ("failed to load kubeconfig: " ++ err)),
                  [parsed, ⟨fetch, none⟩, ⟨.load first.Value, some err⟩])
              | .ok kubeConfig =>
                (.ret (some kubeConfig) none,
                  [parsed, ⟨fetch, none⟩, ⟨.load first.Value, none⟩])

/-- How the loop over one page ends: it ran through with the clusters accumulated, or the
function returned (or panicked) inside it. -/
inductive Flow (Config : Type) where
  | next (clusters : List (ProviderCluster Config))
  | exit (r : GoResult (Option (List (ProviderCluster Config))))

/-- The inner loop of `ListClusters`, `for _, aksCluster := range nextResult.Value`. -/
def rangeValue {Config : Type} (b : Backend Config) (client : ManagedClustersClient) :
    Page → List (ProviderCluster Config) → Flow Config × List Event
  | [], clusters => (.next clusters, [])
  | aksCluster :: rest, clusters =>
    match getKubeconfigForCluster b client aksCluster with
    | (.panic msg, calls) => (.exit (.panic msg), calls)
    | (.ret _ (some err), calls) =>
      (.exit (.ret none (some ("failed to get kubeconfig for cluster: " ++ err))), calls)
    | (.ret kubeConfig none, calls) =>
      match aksCluster.bind (fun c => c.Name) with
      | none => (.exit (.panic nilDereference), calls)
      | some name =>
        ((rangeValue b client rest (clusters ++ [⟨name, kubeConfig⟩])).1,
          calls ++ (rangeValue b client rest (clusters ++ [⟨name, kubeConfig⟩])).2)

/-- The outer loop of `ListClusters`, `for pager.More()`. -/
def pagerLoop {Config : Type} (b : Backend Config) (client : ManagedClustersClient) :
    List (Except String Page) → List (ProviderCluster Config) →
      GoResult (Option (List (ProviderCluster Config))) × List Event
  | [], clusters => (.ret (some clusters) none, [])
  | .error err :: _, _ =>
    (.ret none (some ("failed to advance page: " ++ err)), [⟨.nextPage, some err⟩])
  | .ok nextResult :: more, clusters =>
    match rangeValue b client nextResult clusters with
    | (.exit r, calls) => (r, ⟨.nextPage, none⟩ :: calls)
    | (.next clusters2, calls) =>
      ((pagerLoop b client more clusters2).1,
        ⟨.nextPage, none⟩ :: (calls ++ (pagerLoop b client more clusters2).2))

/-- One invocation of `ListClusters`: the receiver after the call, what the call returned
and the calls it issued. -/
structure Invocation (Config : Type) where
  receiver : AzureProvider
  ret : GoResult (Option (List (ProviderCluster Config)))
  calls : List Event

/-- `AzureProvider.ListClusters`. -/
def ListClusters {Config : Type} (p : AzureProvider) (b : Backend Config) : Invocation Config :=
  match b.NewDefaultAzureCredential with
  | .error err =>
    ⟨p, .ret none (some ("failed to obtain a credential: " ++ err)),
      [⟨.newDefaultAzureCredential, some err⟩]⟩
  | .ok cred =>
    match b.NewManagedClustersClient p.SubscriptionID cred with
    | .error err =>
      ⟨p, .ret none (some ("failed to create client: " ++ err)),
        [⟨.newDefaultAzureCredential, none⟩,
          ⟨.newManagedClustersClient p.SubscriptionID, some err⟩]⟩
    | .ok client =>
      ⟨p, (pagerLoop b client (b.pages client) []).1,
        ⟨.newDefaultAzureCredential, none⟩ :: ⟨.newManagedClustersClient p.SubscriptionID, none⟩ ::
          (pagerLoop b client (b.pages client) []).2⟩


/-! ## Stages, messages and records of calls -/

/-- The stages of a discovery call that can fail. -/
inductive Stage where
  | credentialResolution
  | clientConstruction
  | pageFetch
  | identifierParse
  | credentialFetch
  | decode
  deriving DecidableEq, Repr

/-- The stage a call to a collaborator belongs to. -/
def Call.stage : Call → Stage
  | .newDefaultAzureCredential => .credentialResolution
  | .newManagedClustersClient _ => .clientConstruction
  | .nextPage => .pageFetch
  | .parseResourceID _ => .identifierParse
  | .listClusterAdminCredentials _ _ => .credentialFetch
  | .load _ => .decode

/-- The text that precedes the underlying error in the message of `ListClusters`, by
stage. -/
def Stage.errorPrefix : Stage → String
  | .credentialResolution => "failed to obtain a credential: "
  | .clientConstruction => "failed to create client: "
  | .pageFetch => "failed to advance page: "
  | .identifierParse =>
    "failed to get kubeconfig for cluster: failed to get cluster resource group: failed to parse cluster resource group from id: "
  | .credentialFetch => "failed to get kubeconfig for cluster: failed to get cluster credentials: "
  | .decode => "failed to get kubeconfig for cluster: failed to load kubeconfig: "

/-- Reads the failing stage off a message: the first stage whose prefix the message
starts with. -/
def stageOfMessage (m : String) : Option Stage :=
  [Stage.credentialResolution, .clientConstruction, .pageFetch, .identifierParse,
    .credentialFetch, .decode].find? (fun s => s.errorPrefix.data.isPrefixOf m.data)

/-- No call of the record failed. -/
def Clean (calls : List Event) : Prop := ∀ ev ∈ calls, ev.err = none

/-- The record ends with the failure of `call` with error text `e`, and no call before it
failed. -/
def FailsAt (calls : List Event) (call : Call) (e : String) : Prop :=
  ∃ pre, calls = pre ++ [⟨call, some e⟩] ∧ Clean pre

/-- How a result and the record of calls that led to it fit together: a result without
error (or a panic) comes with a record without failure; a result with error `m` carries a
nil value, its record ends at the one failing call, and `wrap m` is the prefix of that
call's stage followed by the call's error text. -/
def Traced {α : Type} (wrap : String → String) (r : GoResult (Option α))
    (calls : List Event) : Prop :=
  match r with
  | .panic _ => Clean calls
  | .ret _ none => Clean calls
  | .ret v (some m) =>
    v = none ∧ ∃ call e, FailsAt calls call e ∧ wrap m = call.stage.errorPrefix ++ e

/-- The descriptors of the pages, in page order, then in the order within each page. -/
def descriptors : List (Except String Page) → List (Option ManagedCluster)
  | [] => []
  | .ok page :: more => page ++ descriptors more
  | .error _ :: more => descriptors more

/-- The admin-credential calls of a record, in the order issued. -/
def credentialCalls (calls : List Event) : List Call :=
  (calls.map (fun ev => ev.call)).filter (fun c => decide (c.stage = .credentialFetch))

/-- The admin-credential call a descriptor asks for: its parsed resource group and its
name. -/
def credentialCallFor {Config : Type} (b : Backend Config) : Option ManagedCluster → Option Call
  | some ⟨some id, some name⟩ =>
    match b.ParseResourceID id with
    | .ok resource => some (.listClusterAdminCredentials resource.ResourceGroup name)
    | .error _ => none
  | _ => none

/-- The reading of `Traced` for the loop over one page: a loop that ran through issued no
failing call; a return inside the loop is `Traced`. -/
def FlowTraced {Config : Type} (f : Flow Config) (calls : List Event) : Prop :=
  match f with
  | .next _ => Clean calls
  | .exit r => Traced id r calls

/-- Every stage succeeds for a descriptor: it is present with an ID and a Name, its
identifier parses, the admin-credential call for its parsed resource group and its name
succeeds, and the response has no payload list, or a first payload that decodes. -/
def StagesSucceed {Config : Type} (b : Backend Config) (client : ManagedClustersClient)
    (d : Option ManagedCluster) : Prop :=
  ∃ id name resource resp, d = some ⟨some id, some name⟩ ∧
    b.ParseResourceID id = .ok resource ∧
    b.ListClusterAdminCredentials client resource.ResourceGroup name = .ok resp ∧
    (resp.Kubeconfigs = none ∨
      ∃ first rest cfg, resp.Kubeconfigs = some (some first :: rest) ∧ b.Load first.Value = .ok cfg)

/-- The cluster with identifier `id` and name `name` fails at stage `s` with the underlying
error text `e`: its identifier does not parse, or its admin-credential call fails, or its
first payload does not decode. -/
def FailsWith {Config : Type} (b : Backend Config) (client : ManagedClustersClient)
    (id name : String) (s : Stage) (e : String) : Prop :=
  (s = .identifierParse ∧ b.ParseResourceID id = .error e) ∨
  (s = .credentialFetch ∧ ∃ resource, b.ParseResourceID id = .ok resource ∧
    b.ListClusterAdminCredentials client resource.ResourceGroup name = .error e) ∨
  (s = .decode ∧ ∃ resource resp first rest, b.ParseResourceID id = .ok resource ∧
    b.ListClusterAdminCredentials client resource.ResourceGroup name = .ok resp ∧
    resp.Kubeconfigs = some (some first :: rest) ∧ b.Load first.Value = .error e)

/-- The descriptor fails at stage `s` with the underlying error text `e`: it is present
with an ID, and its identifier does not parse, or it has a Name and its admin-credential
call fails or its first payload does not decode. -/
def ClusterFails {Config : Type} (b : Backend Config) (client : ManagedClustersClient)
    (d : Option ManagedCluster) (s : Stage) (e : String) : Prop :=
  ∃ id nameOpt, d = some ⟨some id, nameOpt⟩ ∧
    ((s = .identifierParse ∧ b.ParseResourceID id = .error e) ∨
      ∃ name, nameOpt = some name ∧ FailsWith b client id name s e)

/-- The first failure of the listing, in traversal order, is at stage `s` with the
underlying error text `e`: after a run of fetched pages whose descriptors all succeed,
either the next page fetch fails with `e`, or the next page is fetched and, after a run of
descriptors that succeed, a descriptor fails at `s` with `e`. -/
def PagesFailAt {Config : Type} (b : Backend Config) (client : ManagedClustersClient)
    (pages : List (Except String Page)) (s : Stage) (e : String) : Prop :=
  ∃ before after, (∀ pg ∈ before, ∃ ds, pg = Except.ok ds) ∧
    (∀ d ∈ descriptors before, StagesSucceed b client d) ∧
    ((s = .pageFetch ∧ pages = before ++ Except.error e :: after) ∨
      ∃ pre d post, pages = before ++ Except.ok (pre ++ d :: post) :: after ∧
        (∀ x ∈ pre, StagesSucceed b client x) ∧ ClusterFails b client d s e)

/-- The first failure of the backend, in the order `ListClusters` traverses it, is at stage
`s` with the underlying error text `e`: the credential resolution fails; or it succeeds and
the client construction for the provider's subscription fails; or both succeed and the
listing of that client first fails at `s` with `e`. -/
def FirstFailure {Config : Type} (p : AzureProvider) (b : Backend Config) (s : Stage)
    (e : String) : Prop :=
  (s = .credentialResolution ∧ b.NewDefaultAzureCredential = .error e) ∨
  ∃ cred, b.NewDefaultAzureCredential = .ok cred ∧
    ((s = .clientConstruction ∧ b.NewManagedClustersClient p.SubscriptionID cred = .error e) ∨
      ∃ client, b.NewManagedClustersClient p.SubscriptionID cred = .ok client ∧
        PagesFailAt b client (b.pages client) s e)

/-- The payload list of a response is absent, or has a present first entry. -/
def PayloadsSafe (resp : CredentialResults) : Prop :=
  resp.Kubeconfigs = none ∨ ∃ first rest, resp.Kubeconfigs = some (some first :: rest)

/-- The precondition under which no partial operation of `ListClusters` can fail: every
descriptor of every page is present with a present ID and a present Name, and every
admin-credential response has safe payloads. -/
def WellFormed {Config : Type} (b : Backend Config) : Prop :=
  (∀ client page, Except.ok page ∈ b.pages client →
    ∀ d ∈ page, ∃ id name, d = some ⟨some id, some name⟩) ∧
  (∀ client resourceGroup name resp,
    b.ListClusterAdminCredentials client resourceGroup name = .ok resp → PayloadsSafe resp)

/-! ## The grammar of cluster identifiers -/

/-- The segments of a path: the runs of characters between the slashes. -/
def segments : List Char → List (List Char)
  | [] => [[]]
  | c :: cs =>
    if c = '/' then [] :: segments cs
    else
      match segments cs with
      | [] => [[c]]
      | seg :: segs => (c :: seg) :: segs

/-- Modelled from the spec: `azure.ParseResourceID` belongs to the go-autorest library and
is not among the sources. The identifier of a cluster has the form
`/subscriptions/<sub>/resourceGroups/<rg>/providers/<provider>/<type>/<name>` with
non-empty segments; the parser returns its parts, and fails on a string that does not
match this grammar (missing segments, wrong prefix). -/
def ParseResourceID (resourceID : String) : Except String Resource :=
  match (segments resourceID.data).map String.mk with
  | [root, k1, sub, k2, rg, k3, provider, type, name] =>
    if root = "" ∧ k1 = "subscriptions" ∧ sub ≠ "" ∧ k2 = "resourceGroups" ∧ rg ≠ "" ∧
        k3 = "providers" ∧ provider ≠ "" ∧ type ≠ "" ∧ name ≠ "" then
      .ok ⟨sub, rg, provider, type, name⟩
    else .error ("parsing failed for " ++ resourceID ++ ". Invalid resource Id format")
  | _ => .error ("parsing failed for " ++ resourceID ++ ". Invalid resource Id format")

/-- A segment of an identifier: non-empty and without a slash. -/
def IsSegment (s : String) : Prop := s ≠ "" ∧ '/' ∉ s.data

instance (s : String) : Decidable (IsSegment s) :=
  inferInstanceAs (Decidable (s ≠ "" ∧ '/' ∉ s.data))

/-- The identifier of the resource `name` of type `provider/type` in resource group `rg` of
subscription `sub`. -/
def resourceIDOf (sub rg provider type name : String) : String :=
  "/subscriptions/" ++ sub ++ "/resourceGroups/" ++ rg ++ "/providers/" ++ provider ++ "/" ++
    type ++ "/" ++ name

/-- Whether the segments hold a resource-group part: the segment `resourceGroups` followed
by a non-empty segment. -/
def hasScope : List String → Bool
  | key :: value :: rest => (key == "resourceGroups" && value != "") || hasScope (value :: rest)
  | _ => false

/-- The identifier misses the resource-group (scope) segment. -/
def MissingScope (resourceID : String) : Prop :=
  hasScope ((segments resourceID.data).map String.mk) = false

instance (resourceID : String) : Decidable (MissingScope resourceID) :=
  inferInstanceAs (Decidable (hasScope ((segments resourceID.data).map String.mk) = false))

/-! ## Mock backends -/

/-- The identifier of the managed cluster `name` of resource group `rg`. -/
def clusterID (rg name : String) : String :=
  resourceIDOf "sub-1" rg "Microsoft.ContainerService" "managedClusters" name

/-- The descriptor of the managed cluster `name` of resource group `rg`. -/
def descriptor (rg name : String) : Option ManagedCluster :=
  some ⟨some (clusterID rg name), some name⟩

/-- A backend with two pages, clusters `a`, `b` and then `c`, and one valid payload for each
cluster; a kubeconfig is represented by the bytes it was decoded from. -/
def twoPages : Backend Bytes where
  NewDefaultAzureCredential := .ok ⟨⟩
  NewManagedClustersClient := fun subscriptionID _ => .ok ⟨subscriptionID⟩
  pages := fun _ => [.ok [descriptor "rg1" "a", descriptor "rg1" "b"], .ok [descriptor "rg2" "c"]]
  ParseResourceID := ParseResourceID
  ListClusterAdminCredentials := fun _ _ name =>
    .ok ⟨some [some ⟨some "clusterAdmin", name.data.map Char.toNat⟩]⟩
  Load := fun bytes => if bytes = [] then .error "empty kubeconfig" else .ok bytes

/-- A backend with three pages whose second page fetch fails. -/
def secondPageFails : Backend Bytes :=
  { twoPages with
    pages := fun _ =>
      [.ok [descriptor "rg1" "a"], .error "context deadline exceeded", .ok [descriptor "rg2" "c"]] }

/-- A backend with clusters `alpha`, `beta` and then `gamma`, in which the admin-credential
call for `beta` is refused. -/
def betaRefused : Backend Bytes :=
  { twoPages with
    pages := fun _ =>
      [.ok [descriptor "rg1" "alpha", descriptor "rg1" "beta"], .ok [descriptor "rg2" "gamma"]]
    ListClusterAdminCredentials := fun _ _ name =>
      if name = "beta" then .error "AuthorizationFailed"
      else .ok ⟨some [some ⟨some "clusterAdmin", name.data.map Char.toNat⟩]⟩ }

/-- A backend whose admin-credential responses carry a payload list that is present and has
no entry. -/
def noPayloads : Backend Bytes :=
  { twoPages with ListClusterAdminCredentials := fun _ _ _ => .ok ⟨some []⟩ }

/-- A backend whose admin-credential responses carry the given payloads after the payload
of the cluster's name. -/
def morePayloads (later : List (Option CredentialResult)) : Backend Bytes :=
  { twoPages with
    ListClusterAdminCredentials := fun _ _ name =>
      .ok ⟨some (some ⟨some "clusterAdmin", name.data.map Char.toNat⟩ :: later)⟩ }

/-- A backend without ambient credential. -/
def noCredential : Backend Bytes :=
  { twoPages with NewDefaultAzureCredential := .error "no credential source" }

/-- A backend that cannot build a client. -/
def noClient : Backend Bytes :=
  { twoPages with NewManagedClustersClient := fun _ _ => .error "invalid endpoint" }

/-- A backend whose second cluster `b`, which has no Name, has an identifier without
resource group. -/
def badIdentifier : Backend Bytes :=
  { twoPages with
    pages := fun _ =>
      [.ok [descriptor "rg1" "a", some ⟨some "/subscriptions/sub-1/b", none⟩]] }

/-- A backend whose payloads are empty and do not decode. -/
def badPayload : Backend Bytes :=
  { twoPages with
    ListClusterAdminCredentials := fun _ _ _ => .ok ⟨some [some ⟨none, []⟩]⟩ }

/-! ## Messages and records: auxiliary facts -/

theorem wrap_parse (e : String) :
    "failed to get kubeconfig for cluster: " ++ ("failed to get cluster resource group: " ++
      ("failed to parse cluster resource group from id: " ++ e)) =
      Stage.identifierParse.errorPrefix ++ e := by
  simp only [Stage.errorPrefix, ← String.append_assoc]
  rfl

theorem wrap_fetch (e : String) :
    "failed to get kubeconfig for cluster: " ++ ("failed to get cluster credentials: " ++ e) =
      Stage.credentialFetch.errorPrefix ++ e := by
  simp only [Stage.errorPrefix, ← String.append_assoc]
  rfl

theorem wrap_load (e : String) :
    "failed to get kubeconfig for cluster: " ++ ("failed to load kubeconfig: " ++ e) =
      Stage.decode.errorPrefix ++ e := by
  simp only [Stage.errorPrefix, ← String.append_assoc]
  rfl

theorem clean_nil : Clean [] := by
  intro ev h
  cases h

theorem clean_cons {ev : Event} {calls : List Event} (h : ev.err = none) (hc : Clean calls) :
    Clean (ev :: calls) := by
  intro x hx
  rcases List.mem_cons.mp hx with rfl | hx
  · exact h
  · exact hc x hx

theorem clean_append {xs ys : List Event} (hx : Clean xs) (hy : Clean ys) : Clean (xs ++ ys) := by
  intro x hm
  rcases List.mem_append.mp hm with h | h
  · exact hx x h
  · exact hy x h

theorem failsAt_cons {ev : Event} {calls : List Event} {call : Call} {e : String}
    (h : ev.err = none) (hf : FailsAt calls call e) : FailsAt (ev :: calls) call e := by
  obtain ⟨pre, rfl, hp⟩ := hf
  exact ⟨ev :: pre, rfl, clean_cons h hp⟩

theorem failsAt_append {xs calls : List Event} {call : Call} {e : String}
    (hx : Clean xs) (hf : FailsAt calls call e) : FailsAt (xs ++ calls) call e := by
  obtain ⟨pre, rfl, hp⟩ := hf
  exact ⟨xs ++ pre, (List.append_assoc _ _ _).symm, clean_append hx hp⟩

theorem failsAt_single (call : Call) (e : String) : FailsAt [⟨call, some e⟩] call e :=
  ⟨[], rfl, clean_nil⟩

theorem clean_one {call : Call} : Clean [⟨call, none⟩] :=
  clean_cons rfl clean_nil

theorem clean_two {c1 c2 : Call} : Clean [⟨c1, none⟩, ⟨c2, none⟩] :=
  clean_cons rfl clean_one

theorem clean_three {c1 c2 c3 : Call} : Clean [⟨c1, none⟩, ⟨c2, none⟩, ⟨c3, none⟩] :=
  clean_cons rfl clean_two

/-- The result of `getKubeconfigForCluster` and its record of calls fit together. -/
theorem getKubeconfigForCluster_traced {Config : Type} (b : Backend Config)
    (client : ManagedClustersClient) (d : Option ManagedCluster) :
    Traced (fun m => "failed to get kubeconfig for cluster: " ++ m)
      (getKubeconfigForCluster b client d).1 (getKubeconfigForCluster b client d).2 := by
  rcases d with _ | ⟨_ | id, name⟩
  · simpa [getKubeconfigForCluster, Traced] using clean_nil
  · simpa [getKubeconfigForCluster, Traced] using clean_nil
  · cases hp : b.ParseResourceID id with
    | error e =>
      simp only [getKubeconfigForCluster, aksClusterResourceGroup, hp, Traced, errorOf]
      exact ⟨trivial, _, e, failsAt_single _ e, wrap_parse e⟩
    | ok r =>
      cases name with
      | none =>
        simpa [getKubeconfigForCluster, aksClusterResourceGroup, hp, Traced, errorOf]
          using clean_one
      | some name =>
        cases hf : b.ListClusterAdminCredentials client r.ResourceGroup name with
        | error e =>
          simp only [getKubeconfigForCluster, aksClusterResourceGroup, hp, hf, Traced, errorOf]
          exact ⟨trivial, _, e, failsAt_cons rfl (failsAt_single _ e), wrap_fetch e⟩
        | ok resp =>
          rcases hk : resp.Kubeconfigs with _ | _ | ⟨_ | first, rest⟩
          · simpa [getKubeconfigForCluster, aksClusterResourceGroup, hp, hf, hk, Traced, errorOf]
              using clean_two
          · simpa [getKubeconfigForCluster, aksClusterResourceGroup, hp, hf, hk, Traced, errorOf]
              using clean_two
          · simpa [getKubeconfigForCluster, aksClusterResourceGroup, hp, hf, hk, Traced, errorOf]
              using clean_two
          · cases hl : b.Load first.Value with
            | error e =>
              simp only [getKubeconfigForCluster, aksClusterResourceGroup, hp, hf, hk, hl, Traced,
                errorOf]
              exact ⟨trivial, _, e, failsAt_cons rfl (failsAt_cons rfl (failsAt_single _ e)),
                wrap_load e⟩
            | ok cfg =>
              simpa [getKubeconfigForCluster, aksClusterResourceGroup, hp, hf, hk, hl, Traced,
                errorOf] using clean_three

theorem traced_cons {α : Type} {wrap : String → String} {r : GoResult (Option α)}
    {calls : List Event} {ev : Event} (h : ev.err = none) (ht : Traced wrap r calls) :
    Traced wrap r (ev :: calls) := by
  rcases r with ⟨v, _ | m⟩ | msg
  · exact clean_cons h ht
  · obtain ⟨hv, call, e, hf, hm⟩ := ht
    exact ⟨hv, call, e, failsAt_cons h hf, hm⟩
  · exact clean_cons h ht

theorem traced_append {α : Type} {wrap : String → String} {r : GoResult (Option α)}
    {calls xs : List Event} (h : Clean xs) (ht : Traced wrap r calls) :
    Traced wrap r (xs ++ calls) := by
  rcases r with ⟨v, _ | m⟩ | msg
  · exact clean_append h ht
  · obtain ⟨hv, call, e, hf, hm⟩ := ht
    exact ⟨hv, call, e, failsAt_append h hf, hm⟩
  · exact clean_append h ht

theorem flowTraced_append {Config : Type} {f : Flow Config} {calls xs : List Event}
    (h : Clean xs) (ht : FlowTraced f calls) : FlowTraced f (xs ++ calls) := by
  cases f with
  | next _ => exact clean_append h ht
  | exit r => exact traced_append h ht

/-- The loop over one page and its record of calls fit together. -/
theorem rangeValue_traced {Config : Type} (b : Backend Config) (client : ManagedClustersClient)
    (ds : Page) : ∀ acc : List (ProviderCluster Config),
      FlowTraced (rangeValue b client ds acc).1 (rangeValue b client ds acc).2 := by
  induction ds with
  | nil => intro acc; exact clean_nil
  | cons d rest ih =>
    intro acc
    have hg := getKubeconfigForCluster_traced b client d
    rcases hgk : getKubeconfigForCluster b client d with ⟨r, tr⟩
    rw [hgk] at hg
    rcases r with ⟨v, _ | m⟩ | msg
    · cases hn : d.bind (fun c => c.Name) with
      | none =>
        simp only [rangeValue, hgk, hn]
        exact hg
      | some name =>
        simp only [rangeValue, hgk, hn]
        exact flowTraced_append hg (ih _)
    · simp only [rangeValue, hgk]
      obtain ⟨_, call, e, hf, hm⟩ := hg
      exact ⟨rfl, call, e, hf, hm⟩
    · simp only [rangeValue, hgk]
      exact hg

/-- The loop over the pages and its record of calls fit together. -/
theorem pagerLoop_traced {Config : Type} (b : Backend Config) (client : ManagedClustersClient)
    (pages : List (Except String Page)) : ∀ acc : List (ProviderCluster Config),
      Traced id (pagerLoop b client pages acc).1 (pagerLoop b client pages acc).2 := by
  induction pages with
  | nil => intro acc; exact clean_nil
  | cons page more ih =>
    intro acc
    cases page with
    | error e =>
      simp only [pagerLoop]
      exact ⟨rfl, _, e, failsAt_single _ e, rfl⟩
    | ok ds =>
      have hr := rangeValue_traced b client ds acc
      rcases hrv : rangeValue b client ds acc with ⟨f, tr⟩
      rw [hrv] at hr
      cases f with
      | exit r =>
        simp only [pagerLoop, hrv]
        exact traced_cons rfl hr
      | next acc2 =>
        simp only [pagerLoop, hrv]
        exact traced_cons rfl (traced_append hr (ih acc2))

/-- The result of `ListClusters` and its record of calls fit together. -/
theorem ListClusters_traced {Config : Type} (p : AzureProvider) (b : Backend Config) :
    Traced id (ListClusters p b).ret (ListClusters p b).calls := by
  cases hc : b.NewDefaultAzureCredential with
  | error e =>
    simp only [ListClusters, hc]
    exact ⟨rfl, _, e, failsAt_single _ e, rfl⟩
  | ok cred =>
    cases hn : b.NewManagedClustersClient p.SubscriptionID cred with
    | error e =>
      simp only [ListClusters, hc, hn]
      exact ⟨rfl, _, e, failsAt_cons rfl (failsAt_single _ e), rfl⟩
    | ok client =>
      simp only [ListClusters, hc, hn]
      exact traced_cons rfl (traced_cons rfl (pagerLoop_traced b client _ []))

/-- When every stage succeeds for a descriptor, `getKubeconfigForCluster` returns without
error and the descriptor has a name. -/
theorem getKubeconfigForCluster_succeeds {Config : Type} {b : Backend Config}
    {client : ManagedClustersClient} {d : Option ManagedCluster} (h : StagesSucceed b client d) :
    ∃ name kubeConfig, d.bind (fun c => c.Name) = some name ∧
      (getKubeconfigForCluster b client d).1 = .ret kubeConfig none := by
  obtain ⟨id, name, r, resp, rfl, hp, hf, hk | ⟨first, rest, cfg, hk, hl⟩⟩ := h
  · exact ⟨name, none, rfl, by
      simp [getKubeconfigForCluster, aksClusterResourceGroup, hp, hf, hk]⟩
  · exact ⟨name, some cfg, rfl, by
      simp [getKubeconfigForCluster, aksClusterResourceGroup, hp, hf, hk, hl]⟩

/-- When a stage fails for a descriptor, `getKubeconfigForCluster` returns the error of
that stage. -/
theorem getKubeconfigForCluster_fails {Config : Type} {b : Backend Config}
    {client : ManagedClustersClient} {id name : String} {s : Stage} {e : String}
    (h : FailsWith b client id name s e) :
    ∃ err, (getKubeconfigForCluster b client (some ⟨some id, some name⟩)).1 = .ret none (some err) ∧
      "failed to get kubeconfig for cluster: " ++ err = s.errorPrefix ++ e := by
  rcases h with ⟨rfl, hp⟩ | ⟨rfl, r, hp, hf⟩ | ⟨rfl, r, resp, first, rest, hp, hf, hk, hl⟩
  · exact ⟨_, by simp only [getKubeconfigForCluster, aksClusterResourceGroup, hp], wrap_parse e⟩
  · exact ⟨_, by simp only [getKubeconfigForCluster, aksClusterResourceGroup, hp, hf],
      wrap_fetch e⟩
  · exact ⟨_, by simp only [getKubeconfigForCluster, aksClusterResourceGroup, hp, hf, hk, hl],
      wrap_load e⟩

/-- A present descriptor with ID and Name whose responses have safe payloads does not make
`getKubeconfigForCluster` panic. -/
theorem getKubeconfigForCluster_returns {Config : Type} {b : Backend Config}
    {client : ManagedClustersClient} {id name : String}
    (h : ∀ resourceGroup resp,
      b.ListClusterAdminCredentials client resourceGroup name = .ok resp → PayloadsSafe resp) :
    ∃ v err, (getKubeconfigForCluster b client (some ⟨some id, some name⟩)).1 = .ret v err := by
  cases hp : b.ParseResourceID id with
  | error e => exact ⟨_, _, by simp only [getKubeconfigForCluster, aksClusterResourceGroup, hp]; rfl⟩
  | ok r =>
    cases hf : b.ListClusterAdminCredentials client r.ResourceGroup name with
    | error e =>
      exact ⟨_, _, by simp only [getKubeconfigForCluster, aksClusterResourceGroup, hp, hf]; rfl⟩
    | ok resp =>
      rcases h _ _ hf with hk | ⟨first, rest, hk⟩
      · exact ⟨_, _, by simp only [getKubeconfigForCluster, aksClusterResourceGroup, hp, hf, hk]; rfl⟩
      · cases hl : b.Load first.Value with
        | error e =>
          exact ⟨_, _, by
            simp only [getKubeconfigForCluster, aksClusterResourceGroup, hp, hf, hk, hl]; rfl⟩
        | ok cfg =>
          exact ⟨_, _, by
            simp only [getKubeconfigForCluster, aksClusterResourceGroup, hp, hf, hk, hl]; rfl⟩

/-- A call of `getKubeconfigForCluster` that returns without error issued exactly the
admin-credential call its descriptor asks for. -/
theorem getKubeconfigForCluster_calls {Config : Type} (b : Backend Config)
    (client : ManagedClustersClient) (d : Option ManagedCluster) (kubeConfig : Option Config)
    (h : (getKubeconfigForCluster b client d).1 = .ret kubeConfig none) :
    (credentialCalls (getKubeconfigForCluster b client d).2).map some = [credentialCallFor b d] := by
  rcases d with _ | ⟨_ | id, name⟩
  · simp [getKubeconfigForCluster] at h
  · simp [getKubeconfigForCluster] at h
  · cases hp : b.ParseResourceID id with
    | error e => simp [getKubeconfigForCluster, aksClusterResourceGroup, hp] at h
    | ok r =>
      cases name with
      | none => simp [getKubeconfigForCluster, aksClusterResourceGroup, hp] at h
      | some name =>
        cases hf : b.ListClusterAdminCredentials client r.ResourceGroup name with
        | error e => simp [getKubeconfigForCluster, aksClusterResourceGroup, hp, hf] at h
        | ok resp =>
          rcases hk : resp.Kubeconfigs with _ | _ | ⟨_ | first, rest⟩
          · simp [getKubeconfigForCluster, aksClusterResourceGroup, hp, hf, hk, credentialCalls,
              credentialCallFor, Call.stage]
          · simp [getKubeconfigForCluster, aksClusterResourceGroup, hp, hf, hk] at h
          · simp [getKubeconfigForCluster, aksClusterResourceGroup, hp, hf, hk] at h
          · cases hl : b.Load first.Value with
            | error e => simp [getKubeconfigForCluster, aksClusterResourceGroup, hp, hf, hk, hl] at h
            | ok cfg =>
              simp [getKubeconfigForCluster, aksClusterResourceGroup, hp, hf, hk, hl,
                credentialCalls, credentialCallFor, Call.stage]

/-- The loop over a page passes over a run of descriptors for which every stage succeeds,
appending one cluster for each, with its name. -/
theorem rangeValue_passes {Config : Type} (b : Backend Config) (client : ManagedClustersClient)
    (rest : Page) (pre : Page) : ∀ acc : List (ProviderCluster Config),
      (∀ d ∈ pre, StagesSucceed b client d) →
      ∃ out : List (ProviderCluster Config),
        (rangeValue b client (pre ++ rest) acc).1 = (rangeValue b client rest (acc ++ out)).1 ∧
        out.map (fun c => some c.Name) = pre.map (fun d => d.bind (fun c => c.Name)) := by
  induction pre with
  | nil =>
    intro acc _
    exact ⟨[], by simp, rfl⟩
  | cons d pre ih =>
    intro acc h
    obtain ⟨name, kc, hn, hg⟩ := getKubeconfigForCluster_succeeds (h d (List.mem_cons_self _ _))
    obtain ⟨out, ho, hm⟩ := ih (acc ++ [⟨name, kc⟩]) (fun x hx => h x (List.mem_cons_of_mem _ hx))
    refine ⟨⟨name, kc⟩ :: out, ?_, ?_⟩
    · rcases hgk : getKubeconfigForCluster b client d with ⟨r, tr⟩
      rw [hgk] at hg
      simp only at hg
      subst hg
      simp only [List.cons_append, rangeValue, hgk, hn]
      refine ho.trans ?_
      simp
    · simp [hm, hn]

/-- The loop over the pages passes over a run of fetched pages whose descriptors all
succeed, appending one cluster for each descriptor, with its name, in order. -/
theorem pagerLoop_passes {Config : Type} (b : Backend Config) (client : ManagedClustersClient)
    (rest : List (Except String Page)) (before : List (Except String Page)) :
    ∀ acc : List (ProviderCluster Config),
      (∀ pg ∈ before, ∃ ds, pg = Except.ok ds) →
      (∀ d ∈ descriptors before, StagesSucceed b client d) →
      ∃ out : List (ProviderCluster Config),
        (pagerLoop b client (before ++ rest) acc).1 = (pagerLoop b client rest (acc ++ out)).1 ∧
        out.map (fun c => some c.Name) =
          (descriptors before).map (fun d => d.bind (fun c => c.Name)) := by
  induction before with
  | nil =>
    intro acc _ _
    exact ⟨[], by simp, rfl⟩
  | cons pg before ih =>
    intro acc hp hd
    obtain ⟨ds, rfl⟩ := hp pg (List.mem_cons_self _ _)
    have hds : ∀ d ∈ ds, StagesSucceed b client d := fun d hm =>
      hd d (by simp [descriptors, hm])
    obtain ⟨out1, h1, hn1⟩ := rangeValue_passes b client [] ds acc hds
    obtain ⟨out2, h2, hn2⟩ := ih (acc ++ out1)
      (fun x hx => hp x (List.mem_cons_of_mem _ hx))
      (fun d hm => hd d (by simp [descriptors, hm]))
    refine ⟨out1 ++ out2, ?_, ?_⟩
    · rw [List.append_nil] at h1
      rcases hrv : rangeValue b client ds acc with ⟨f, tr⟩
      rw [hrv] at h1
      simp only [rangeValue] at h1
      subst h1
      simp only [List.cons_append, pagerLoop, hrv]
      refine h2.trans ?_
      rw [List.append_assoc]
    · simp [descriptors, hn1, hn2]

theorem credentialCalls_append (xs ys : List Event) :
    credentialCalls (xs ++ ys) = credentialCalls xs ++ credentialCalls ys := by
  simp [credentialCalls]

/-- A return inside the loop over a page is a panic or an error with a nil list. -/
theorem rangeValue_exit {Config : Type} (b : Backend Config) (client : ManagedClustersClient)
    (ds : Page) : ∀ (acc : List (ProviderCluster Config))
      (r : GoResult (Option (List (ProviderCluster Config)))),
      (rangeValue b client ds acc).1 = .exit r →
      (∃ m, r = .ret none (some m)) ∨ ∃ msg, r = .panic msg := by
  induction ds with
  | nil => intro acc r h; simp [rangeValue] at h
  | cons d rest ih =>
    intro acc r h
    rcases hgk : getKubeconfigForCluster b client d with ⟨g, tr⟩
    rcases g with ⟨v, _ | m⟩ | msg
    · cases hn : d.bind (fun c => c.Name) with
      | none =>
        simp only [rangeValue, hgk, hn, Flow.exit.injEq] at h
        exact Or.inr ⟨_, h.symm⟩
      | some name =>
        simp only [rangeValue, hgk, hn] at h
        exact ih _ r h
    · simp only [rangeValue, hgk, Flow.exit.injEq] at h
      exact Or.inl ⟨_, h.symm⟩
    · simp only [rangeValue, hgk, Flow.exit.injEq] at h
      exact Or.inr ⟨_, h.symm⟩

/-- A loop over a page that ran through issued one admin-credential call per descriptor,
in order, each with the descriptor's parsed resource group and name. -/
theorem rangeValue_calls {Config : Type} (b : Backend Config) (client : ManagedClustersClient)
    (ds : Page) : ∀ (acc out : List (ProviderCluster Config)),
      (rangeValue b client ds acc).1 = .next out →
      (credentialCalls (rangeValue b client ds acc).2).map some = ds.map (credentialCallFor b) := by
  induction ds with
  | nil => intro acc out _; simp [rangeValue, credentialCalls]
  | cons d rest ih =>
    intro acc out h
    have hc := getKubeconfigForCluster_calls b client d
    rcases hgk : getKubeconfigForCluster b client d with ⟨g, tr⟩
    rw [hgk] at hc
    rcases g with ⟨v, _ | m⟩ | msg
    · cases hn : d.bind (fun c => c.Name) with
      | none => simp [rangeValue, hgk, hn] at h
      | some name =>
        simp only [rangeValue, hgk, hn] at h
        simp only [rangeValue, hgk, hn, credentialCalls_append, List.map_append, List.map_cons]
        rw [ih _ out h, hc v rfl]
        rfl
    · simp [rangeValue, hgk] at h
    · simp [rangeValue, hgk] at h

/-- A discovery loop that returned a list issued one admin-credential call per descriptor of
the pages, in listing order. -/
theorem pagerLoop_calls {Config : Type} (b : Backend Config) (client : ManagedClustersClient)
    (pages : List (Except String Page)) : ∀ (acc out : List (ProviderCluster Config)),
      (pagerLoop b client pages acc).1 = .ret (some out) none →
      (credentialCalls (pagerLoop b client pages acc).2).map some =
        (descriptors pages).map (credentialCallFor b) := by
  induction pages with
  | nil => intro acc out _; simp [pagerLoop, credentialCalls, descriptors]
  | cons pg more ih =>
    intro acc out h
    cases pg with
    | error e => simp [pagerLoop] at h
    | ok ds =>
      have hx := rangeValue_exit b client ds acc
      have hc := rangeValue_calls b client ds acc
      rcases hrv : rangeValue b client ds acc with ⟨f, tr⟩
      rw [hrv] at hx hc
      cases f with
      | exit r =>
        simp only [pagerLoop, hrv] at h
        rcases hx r rfl with ⟨m, hm⟩ | ⟨msg, hm⟩ <;> simp [hm] at h
      | next acc2 =>
        simp only [pagerLoop, hrv] at h
        have h1 := ih acc2 out h
        have h2 := hc acc2 rfl
        simp only [pagerLoop, hrv, descriptors, List.map_append]
        rw [← h1, ← h2]
        simp [credentialCalls, Call.stage]

/-- The loop over a page of present descriptors with safe responses does not panic. -/
theorem rangeValue_no_panic {Config : Type} (b : Backend Config) (client : ManagedClustersClient)
    (hs : ∀ resourceGroup name resp,
      b.ListClusterAdminCredentials client resourceGroup name = .ok resp → PayloadsSafe resp)
    (ds : Page) : ∀ (acc : List (ProviderCluster Config)),
      (∀ d ∈ ds, ∃ id name, d = some ⟨some id, some name⟩) →
      ∀ msg, (rangeValue b client ds acc).1 ≠ .exit (.panic msg) := by
  induction ds with
  | nil => intro acc _ msg; simp [rangeValue]
  | cons d rest ih =>
    intro acc hd msg
    obtain ⟨id, name, rfl⟩ := hd d (List.mem_cons_self _ _)
    obtain ⟨v, err, hg⟩ := @getKubeconfigForCluster_returns Config b client id name
      (fun rg resp h => hs rg name resp h)
    rcases hgk : getKubeconfigForCluster b client (some ⟨some id, some name⟩) with ⟨g, tr⟩
    rw [hgk] at hg
    simp only at hg
    subst hg
    cases err with
    | none =>
      simp only [rangeValue, hgk, Option.bind]
      exact ih _ (fun x hx => hd x (List.mem_cons_of_mem _ hx)) msg
    | some e => simp [rangeValue, hgk]

/-- The loop over pages of present descriptors with safe responses does not panic. -/
theorem pagerLoop_no_panic {Config : Type} (b : Backend Config) (client : ManagedClustersClient)
    (hs : ∀ resourceGroup name resp,
      b.ListClusterAdminCredentials client resourceGroup name = .ok resp → PayloadsSafe resp)
    (pages : List (Except String Page)) : ∀ (acc : List (ProviderCluster Config)),
      (∀ page, Except.ok page ∈ pages → ∀ d ∈ page, ∃ id name, d = some ⟨some id, some name⟩) →
      ∀ msg, (pagerLoop b client pages acc).1 ≠ .panic msg := by
  induction pages with
  | nil => intro acc _ msg; simp [pagerLoop]
  | cons pg more ih =>
    intro acc hd msg
    cases pg with
    | error e => simp [pagerLoop]
    | ok ds =>
      have hr := rangeValue_no_panic b client hs ds acc (hd ds (List.mem_cons_self _ _))
      rcases hrv : rangeValue b client ds acc with ⟨f, tr⟩
      rw [hrv] at hr
      cases f with
      | exit r =>
        simp only [pagerLoop, hrv]
        intro hc
        exact hr msg (by rw [hc])
      | next acc2 =>
        simp only [pagerLoop, hrv]
        exact ih acc2 (fun page hp => hd page (List.mem_cons_of_mem _ hp)) msg

theorem segments_last (seg : List Char) (h : '/' ∉ seg) : segments seg = [seg] := by
  induction seg with
  | nil => rfl
  | cons c cs ih =>
    have hc : c ≠ '/' := fun hc => h (by simp [hc])
    have hcs : '/' ∉ cs := fun hm => h (List.mem_cons_of_mem _ hm)
    simp [segments, hc, ih hcs]

theorem segments_append (seg rest : List Char) (h : '/' ∉ seg) :
    segments (seg ++ '/' :: rest) = seg :: segments rest := by
  induction seg with
  | nil => simp [segments]
  | cons c cs ih =>
    have hc : c ≠ '/' := fun hc => h (by simp [hc])
    have hcs : '/' ∉ cs := fun hm => h (List.mem_cons_of_mem _ hm)
    simp [segments, hc, ih hcs]

theorem segments_resourceIDOf (sub rg provider type name : String)
    (h1 : '/' ∉ sub.data) (h2 : '/' ∉ rg.data) (h3 : '/' ∉ provider.data) (h4 : '/' ∉ type.data)
    (h5 : '/' ∉ name.data) :
    (segments (resourceIDOf sub rg provider type name).data).map String.mk =
      ["", "subscriptions", sub, "resourceGroups", rg, "providers", provider, type, name] := by
  have e : (resourceIDOf sub rg provider type name).data =
      [] ++ '/' :: ("subscriptions".data ++ '/' :: (sub.data ++ '/' :: ("resourceGroups".data ++
        '/' :: (rg.data ++ '/' :: ("providers".data ++ '/' :: (provider.data ++ '/' ::
          (type.data ++ '/' :: name.data))))))) := by
    simp [resourceIDOf, String.data_append]
  rw [e, segments_append _ _ (by simp), segments_append _ _ (by decide), segments_append _ _ h1,
    segments_append _ _ (by decide), segments_append _ _ h2, segments_append _ _ (by decide),
    segments_append _ _ h3, segments_append _ _ h4, segments_last _ h5]
  rfl

/-! ## The first failure of a backend -/

/-- A descriptor that fails at a stage makes `getKubeconfigForCluster` return the error of
that stage. -/
theorem getKubeconfigForCluster_clusterFails {Config : Type} {b : Backend Config}
    {client : ManagedClustersClient} {d : Option ManagedCluster} {s : Stage} {e : String}
    (h : ClusterFails b client d s e) :
    ∃ err, (getKubeconfigForCluster b client d).1 = .ret none (some err) ∧
      "failed to get kubeconfig for cluster: " ++ err = s.errorPrefix ++ e := by
  obtain ⟨id, nameOpt, rfl, ⟨rfl, hp⟩ | ⟨name, rfl, hf⟩⟩ := h
  · exact ⟨_, by simp only [getKubeconfigForCluster, aksClusterResourceGroup, hp], wrap_parse e⟩
  · exact getKubeconfigForCluster_fails hf

/-- A call of `getKubeconfigForCluster` that returns without error had every stage
succeed. -/
theorem getKubeconfigForCluster_ok_inv {Config : Type} (b : Backend Config)
    (client : ManagedClustersClient) (d : Option ManagedCluster) (kubeConfig : Option Config)
    (h : (getKubeconfigForCluster b client d).1 = .ret kubeConfig none) :
    StagesSucceed b client d := by
  rcases d with _ | ⟨_ | id, name⟩
  · simp [getKubeconfigForCluster] at h
  · simp [getKubeconfigForCluster] at h
  · cases hp : b.ParseResourceID id with
    | error e => simp [getKubeconfigForCluster, aksClusterResourceGroup, hp] at h
    | ok r =>
      cases name with
      | none => simp [getKubeconfigForCluster, aksClusterResourceGroup, hp] at h
      | some name =>
        cases hf : b.ListClusterAdminCredentials client r.ResourceGroup name with
        | error e => simp [getKubeconfigForCluster, aksClusterResourceGroup, hp, hf] at h
        | ok resp =>
          rcases hk : resp.Kubeconfigs with _ | _ | ⟨_ | first, rest⟩
          · exact ⟨id, name, r, resp, rfl, hp, hf, Or.inl hk⟩
          · simp [getKubeconfigForCluster, aksClusterResourceGroup, hp, hf, hk] at h
          · simp [getKubeconfigForCluster, aksClusterResourceGroup, hp, hf, hk] at h
          · cases hl : b.Load first.Value with
            | error e => simp [getKubeconfigForCluster, aksClusterResourceGroup, hp, hf, hk, hl] at h
            | ok cfg => exact ⟨id, name, r, resp, rfl, hp, hf, Or.inr ⟨first, rest, cfg, hk, hl⟩⟩

/-- A call of `getKubeconfigForCluster` that returns an error had a stage fail, and the
error is that stage's. -/
theorem getKubeconfigForCluster_error_inv {Config : Type} (b : Backend Config)
    (client : ManagedClustersClient) (d : Option ManagedCluster) (v : Option Config)
    (err : String) (h : (getKubeconfigForCluster b client d).1 = .ret v (some err)) :
    ∃ s e, ClusterFails b client d s e ∧
      "failed to get kubeconfig for cluster: " ++ err = s.errorPrefix ++ e := by
  rcases d with _ | ⟨_ | id, name⟩
  · simp [getKubeconfigForCluster] at h
  · simp [getKubeconfigForCluster] at h
  · cases hp : b.ParseResourceID id with
    | error e =>
      simp only [getKubeconfigForCluster, aksClusterResourceGroup, hp, GoResult.ret.injEq,
        Option.some.injEq] at h
      rw [← h.2]
      exact ⟨.identifierParse, e, ⟨id, name, rfl, Or.inl ⟨rfl, hp⟩⟩, wrap_parse e⟩
    | ok r =>
      cases name with
      | none => simp [getKubeconfigForCluster, aksClusterResourceGroup, hp] at h
      | some name =>
        cases hf : b.ListClusterAdminCredentials client r.ResourceGroup name with
        | error e =>
          simp only [getKubeconfigForCluster, aksClusterResourceGroup, hp, hf,
            GoResult.ret.injEq, Option.some.injEq] at h
          rw [← h.2]
          exact ⟨.credentialFetch, e,
            ⟨id, some name, rfl, Or.inr ⟨name, rfl, Or.inr (Or.inl ⟨rfl, r, hp, hf⟩)⟩⟩,
            wrap_fetch e⟩
        | ok resp =>
          rcases hk : resp.Kubeconfigs with _ | _ | ⟨_ | first, rest⟩
          · simp [getKubeconfigForCluster, aksClusterResourceGroup, hp, hf, hk] at h
          · simp [getKubeconfigForCluster, aksClusterResourceGroup, hp, hf, hk] at h
          · simp [getKubeconfigForCluster, aksClusterResourceGroup, hp, hf, hk] at h
          · cases hl : b.Load first.Value with
            | error e =>
              simp only [getKubeconfigForCluster, aksClusterResourceGroup, hp, hf, hk, hl,
                GoResult.ret.injEq, Option.some.injEq] at h
              rw [← h.2]
              exact ⟨.decode, e,
                ⟨id, some name, rfl,
                  Or.inr ⟨name, rfl, Or.inr (Or.inr ⟨rfl, r, resp, first, rest, hp, hf, hk, hl⟩)⟩⟩,
                wrap_load e⟩
            | ok cfg => simp [getKubeconfigForCluster, aksClusterResourceGroup, hp, hf, hk, hl] at h

/-- The loop over a page returns the error of the first descriptor that fails. -/
theorem rangeValue_fails {Config : Type} (b : Backend Config) (client : ManagedClustersClient)
    (pre post : Page) (d : Option ManagedCluster) (s : Stage) (e : String)
    (acc : List (ProviderCluster Config))
    (hs : ∀ x ∈ pre, StagesSucceed b client x) (hf : ClusterFails b client d s e) :
    (rangeValue b client (pre ++ d :: post) acc).1 =
      .exit (.ret none (some (s.errorPrefix ++ e))) := by
  obtain ⟨out, ho, _⟩ := rangeValue_passes b client (d :: post) pre acc hs
  obtain ⟨err, hg, hw⟩ := getKubeconfigForCluster_clusterFails hf
  rw [ho]
  rcases hgk : getKubeconfigForCluster b client d with ⟨g, tr⟩
  rw [hgk] at hg
  simp only at hg
  subst hg
  simp only [rangeValue, hgk, hw]

/-- The loop over the pages returns the error of the first failure of the listing. -/
theorem pagerLoop_fails {Config : Type} (b : Backend Config) (client : ManagedClustersClient)
    (pages : List (Except String Page)) (s : Stage) (e : String)
    (acc : List (ProviderCluster Config)) (h : PagesFailAt b client pages s e) :
    (pagerLoop b client pages acc).1 = .ret none (some (s.errorPrefix ++ e)) := by
  obtain ⟨before, after, hb, hd, ⟨rfl, rfl⟩ | ⟨pre, d, post, rfl, hpre, hf⟩⟩ := h
  · obtain ⟨out, ho, _⟩ := pagerLoop_passes b client (Except.error e :: after) before acc hb hd
    rw [ho]
    simp only [pagerLoop, Stage.errorPrefix]
  · obtain ⟨out, ho, _⟩ := pagerLoop_passes b client (Except.ok (pre ++ d :: post) :: after)
      before acc hb hd
    rw [ho]
    have h3 := rangeValue_fails b client pre post d s e (acc ++ out) hpre hf
    rcases hrv : rangeValue b client (pre ++ d :: post) (acc ++ out) with ⟨f, tr⟩
    rw [hrv] at h3
    simp only at h3
    subst h3
    simp only [pagerLoop, hrv]

/-- A loop over a page that ran through had every stage of every descriptor succeed. -/
theorem rangeValue_next_inv {Config : Type} (b : Backend Config) (client : ManagedClustersClient)
    (ds : Page) : ∀ (acc out : List (ProviderCluster Config)),
      (rangeValue b client ds acc).1 = .next out → ∀ d ∈ ds, StagesSucceed b client d := by
  induction ds with
  | nil => intro acc out _ d hd; cases hd
  | cons x rest ih =>
    intro acc out h d hd
    have hi := getKubeconfigForCluster_ok_inv b client x
    rcases hgk : getKubeconfigForCluster b client x with ⟨g, tr⟩
    rw [hgk] at hi
    rcases g with ⟨v, _ | m⟩ | msg
    · cases hn : x.bind (fun c => c.Name) with
      | none => simp [rangeValue, hgk, hn] at h
      | some name =>
        simp only [rangeValue, hgk, hn] at h
        rcases List.mem_cons.mp hd with rfl | hd
        · exact hi v rfl
        · exact ih _ out h d hd
    · simp [rangeValue, hgk] at h
    · simp [rangeValue, hgk] at h

/-- A loop over a page that returned an error met a failing descriptor after a run of
descriptors that succeed, and the error is that descriptor's. -/
theorem rangeValue_error_inv {Config : Type} (b : Backend Config)
    (client : ManagedClustersClient) (ds : Page) :
    ∀ (acc : List (ProviderCluster Config)) (v : Option (List (ProviderCluster Config)))
      (m : String), (rangeValue b client ds acc).1 = .exit (.ret v (some m)) →
      ∃ pre d post s e, ds = pre ++ d :: post ∧ (∀ x ∈ pre, StagesSucceed b client x) ∧
        ClusterFails b client d s e ∧ m = s.errorPrefix ++ e := by
  induction ds with
  | nil => intro acc v m h; simp [rangeValue] at h
  | cons x rest ih =>
    intro acc v m h
    have hok := getKubeconfigForCluster_ok_inv b client x
    have herr := getKubeconfigForCluster_error_inv b client x
    rcases hgk : getKubeconfigForCluster b client x with ⟨g, tr⟩
    rw [hgk] at hok herr
    rcases g with ⟨kc, _ | err⟩ | msg
    · cases hn : x.bind (fun c => c.Name) with
      | none => simp [rangeValue, hgk, hn] at h
      | some name =>
        simp only [rangeValue, hgk, hn] at h
        obtain ⟨pre, d, post, s, e, rfl, hpre, hf, hm⟩ := ih _ v m h
        refine ⟨x :: pre, d, post, s, e, rfl, ?_, hf, hm⟩
        intro y hy
        rcases List.mem_cons.mp hy with rfl | hy
        · exact hok kc rfl
        · exact hpre y hy
    · simp only [rangeValue, hgk, Flow.exit.injEq, GoResult.ret.injEq, Option.some.injEq] at h
      obtain ⟨s, e, hf, hw⟩ := herr kc err rfl
      exact ⟨[], x, rest, s, e, rfl, (fun y hy => absurd hy (List.not_mem_nil y)), hf, by rw [← h.2, hw]⟩
    · simp [rangeValue, hgk] at h

/-- A loop over the pages that returned an error met the first failure of the listing, and
the error is that failure's. -/
theorem pagerLoop_error_inv {Config : Type} (b : Backend Config)
    (client : ManagedClustersClient) (pages : List (Except String Page)) :
    ∀ (acc : List (ProviderCluster Config)) (v : Option (List (ProviderCluster Config)))
      (m : String), (pagerLoop b client pages acc).1 = .ret v (some m) →
      ∃ s e, PagesFailAt b client pages s e ∧ m = s.errorPrefix ++ e := by
  induction pages with
  | nil => intro acc v m h; simp [pagerLoop] at h
  | cons pg more ih =>
    intro acc v m h
    cases pg with
    | error e =>
      simp only [pagerLoop, GoResult.ret.injEq, Option.some.injEq] at h
      exact ⟨.pageFetch, e,
        ⟨[], more, (fun pg hpg => absurd hpg (List.not_mem_nil pg)),
          (fun d hd => absurd hd (List.not_mem_nil d)), Or.inl ⟨rfl, rfl⟩⟩,
        h.2.symm⟩
    | ok ds =>
      have hnext := rangeValue_next_inv b client ds acc
      have herr := rangeValue_error_inv b client ds acc
      rcases hrv : rangeValue b client ds acc with ⟨f, tr⟩
      rw [hrv] at hnext herr
      cases f with
      | exit r =>
        simp only [pagerLoop, hrv] at h
        subst h
        obtain ⟨pre, d, post, s, e, rfl, hpre, hf, hm⟩ := herr v m rfl
        exact ⟨s, e,
          ⟨[], more, (fun pg hpg => absurd hpg (List.not_mem_nil pg)),
          (fun d hd => absurd hd (List.not_mem_nil d)),
            Or.inr ⟨pre, d, post, rfl, hpre, hf⟩⟩, hm⟩
      | next acc2 =>
        simp only [pagerLoop, hrv] at h
        obtain ⟨s, e, ⟨before, after, hb, hd, hcase⟩, hm⟩ := ih acc2 v m h
        refine ⟨s, e, ⟨Except.ok ds :: before, after, ?_, ?_, ?_⟩, hm⟩
        · intro pg hpg
          rcases List.mem_cons.mp hpg with rfl | hpg
          · exact ⟨ds, rfl⟩
          · exact hb pg hpg
        · intro d hmem
          simp only [descriptors, List.mem_append] at hmem
          rcases hmem with hmem | hmem
          · exact hnext acc2 rfl d hmem
          · exact hd d hmem
        · rcases hcase with ⟨hs, rfl⟩ | ⟨pre, d, post, rfl, hpre, hf⟩
          · exact Or.inl ⟨hs, rfl⟩
          · exact Or.inr ⟨pre, d, post, rfl, hpre, hf⟩

/-! ## The claims -/

/-- C1 (fail-fast aggregation): if any call that `ListClusters` reaches fails (credential
resolution, client construction, a page fetch, an identifier parse, a credential fetch or a
decode), `ListClusters` returns an error together with the nil list, never a partial list of
the clusters processed before. -/
theorem ListClusters_fail_fast {Config : Type} (p : AzureProvider) (b : Backend Config)
    (h : ∃ ev ∈ (ListClusters p b).calls, ev.err ≠ none) :
    ∃ m, (ListClusters p b).ret = .ret none (some m) := by
  obtain ⟨ev, hev, hne⟩ := h
  have ht := ListClusters_traced p b
  rcases hr : (ListClusters p b).ret with ⟨v, _ | m⟩ | msg
  · rw [hr] at ht
    exact absurd (ht ev hev) hne
  · rw [hr] at ht
    obtain ⟨hv, _⟩ := ht
    exact ⟨m, by rw [hv]⟩
  · rw [hr] at ht
    exact absurd (ht ev hev) hne

/-- Witness of C1: three pages whose second page fetch fails give an error and no cluster. -/
theorem ListClusters_fail_fast_witness :
    (⟨.nextPage, some "context deadline exceeded"⟩ : Event) ∈
        (ListClusters (NewAzureProvider "sub-1") secondPageFails).calls ∧
      (ListClusters (NewAzureProvider "sub-1") secondPageFails).ret =
        .ret none (some "failed to advance page: context deadline exceeded") ∧
      ∃ m, (ListClusters (NewAzureProvider "sub-1") secondPageFails).ret = .ret none (some m) :=
  ⟨by decide, by decide,
    ListClusters_fail_fast (NewAzureProvider "sub-1") secondPageFails
      ⟨⟨.nextPage, some "context deadline exceeded"⟩, by decide, by decide⟩⟩

/-- C2 (complete listing): when the credential, the client, every page fetch and every stage
of every descriptor succeed, `ListClusters` returns no error and a list with exactly one
cluster per descriptor, whose names are the descriptors' names in page order, then in the
order within each page; with zero descriptors the list is empty. -/
theorem ListClusters_complete {Config : Type} (p : AzureProvider) (b : Backend Config)
    (cred : DefaultAzureCredential) (client : ManagedClustersClient)
    (hc : b.NewDefaultAzureCredential = .ok cred)
    (hn : b.NewManagedClustersClient p.SubscriptionID cred = .ok client)
    (hp : ∀ pg ∈ b.pages client, ∃ ds, pg = Except.ok ds)
    (hs : ∀ d ∈ descriptors (b.pages client), StagesSucceed b client d) :
    ∃ clusters : List (ProviderCluster Config),
      (ListClusters p b).ret = .ret (some clusters) none ∧
      clusters.map (fun c => some c.Name) =
        (descriptors (b.pages client)).map (fun d => d.bind (fun c => c.Name)) ∧
      clusters.length = (descriptors (b.pages client)).length ∧
      (descriptors (b.pages client) = [] → clusters = []) := by
  obtain ⟨out, ho, hm⟩ := pagerLoop_passes b client [] (b.pages client) [] hp hs
  have hl : out.length = (descriptors (b.pages client)).length := by
    simpa using congrArg List.length hm
  refine ⟨out, ?_, hm, hl, ?_⟩
  · simp only [ListClusters, hc, hn]
    rw [List.append_nil] at ho
    rw [ho]
    simp [pagerLoop]
  · intro hd
    rw [hd] at hl
    exact List.length_eq_zero.mp hl

theorem twoPages_stages (client : ManagedClustersClient) :
    ∀ d ∈ descriptors (twoPages.pages client), StagesSucceed twoPages client d := by
  intro d hd
  simp only [twoPages, descriptors, List.cons_append, List.nil_append, List.append_nil,
    List.mem_cons, List.mem_singleton, List.not_mem_nil, or_false] at hd
  rcases hd with rfl | rfl | rfl
  · exact ⟨_, _, _, _, rfl, rfl, rfl, Or.inr ⟨_, _, _, rfl, rfl⟩⟩
  · exact ⟨_, _, _, _, rfl, rfl, rfl, Or.inr ⟨_, _, _, rfl, rfl⟩⟩
  · exact ⟨_, _, _, _, rfl, rfl, rfl, Or.inr ⟨_, _, _, rfl, rfl⟩⟩

theorem twoPages_fetched (client : ManagedClustersClient) :
    ∀ pg ∈ twoPages.pages client, ∃ ds, pg = Except.ok ds := by
  intro pg hpg
  simp only [twoPages, List.mem_cons, List.mem_singleton, List.not_mem_nil, or_false] at hpg
  rcases hpg with rfl | rfl
  · exact ⟨_, rfl⟩
  · exact ⟨_, rfl⟩

/-- Witness of C2: the pages `a`, `b` and then `c` give the names `a`, `b`, `c` in that
order. -/
theorem ListClusters_complete_witness :
    ∃ clusters : List (ProviderCluster Bytes),
      (ListClusters (NewAzureProvider "sub-1") twoPages).ret = .ret (some clusters) none ∧
      clusters.map (fun c => some c.Name) = [some "a", some "b", some "c"] ∧
      clusters.length = 3 ∧
      (descriptors (twoPages.pages ⟨"sub-1"⟩) = [] → clusters = []) :=
  ListClusters_complete (NewAzureProvider "sub-1") twoPages ⟨⟩ ⟨"sub-1"⟩ rfl rfl
    (twoPages_fetched _) (twoPages_stages _)

/-- C3 (missing-credential tolerance), evaluated on the code: for a descriptor whose
identifier parses and whose admin-credential call succeeds, a nil payload list gives a nil
kubeconfig and no error, but a payload list that is present with zero entries passes the nil
check and the access `Kubeconfigs[0]` panics with index out of range. -/
theorem getKubeconfigForCluster_without_payload {Config : Type} (b : Backend Config)
    (client : ManagedClustersClient) (id name : String) (resource : Resource)
    (resp : CredentialResults)
    (hp : b.ParseResourceID id = .ok resource)
    (hf : b.ListClusterAdminCredentials client resource.ResourceGroup name = .ok resp) :
    (resp.Kubeconfigs = none →
      (getKubeconfigForCluster b client (some ⟨some id, some name⟩)).1 = .ret none none) ∧
    (resp.Kubeconfigs = some [] →
      (getKubeconfigForCluster b client (some ⟨some id, some name⟩)).1 =
        .panic indexOutOfRange) := by
  constructor
  · intro hk
    simp only [getKubeconfigForCluster, aksClusterResourceGroup, hp, hf, hk]
  · intro hk
    simp only [getKubeconfigForCluster, aksClusterResourceGroup, hp, hf, hk]

/-- The failing input of C3: a response whose payload list is present and empty makes
`getKubeconfigForCluster`, and with it `ListClusters`, panic. -/
theorem getKubeconfigForCluster_without_payload_witness :
    (getKubeconfigForCluster noPayloads ⟨"sub-1"⟩ (descriptor "rg1" "a")).1 =
        .panic indexOutOfRange ∧
      (ListClusters (NewAzureProvider "sub-1") noPayloads).ret = .panic indexOutOfRange :=
  ⟨(getKubeconfigForCluster_without_payload noPayloads ⟨"sub-1"⟩ (clusterID "rg1" "a") "a"
      ⟨"sub-1", "rg1", "Microsoft.ContainerService", "managedClusters", "a"⟩ ⟨some []⟩
      rfl rfl).2 rfl,
    by decide⟩

set_option maxRecDepth 8000 in
/-- Counterexample to C4: the admin-credential call for the cluster `beta` is refused, and
the error `ListClusters` returns mentions neither the name `beta` nor the cluster's
identifier. -/
theorem ListClusters_error_omits_cluster :
    betaRefused.ListClusterAdminCredentials ⟨"sub-1"⟩ "rg1" "beta" = .error "AuthorizationFailed" ∧
      ∃ m, (ListClusters (NewAzureProvider "sub-1") betaRefused).ret = .ret none (some m) ∧
        ¬ ("beta".data <:+: m.data) ∧ ¬ ((clusterID "rg1" "beta").data <:+: m.data) := by
  refine ⟨rfl,
    "failed to get kubeconfig for cluster: failed to get cluster credentials: AuthorizationFailed",
    by decide, ?_, ?_⟩
  · decide
  · decide

/-- C4, amended: when the traversal reaches a cluster (every page before it was fetched and
every descriptor before it succeeded) whose identifier parse, admin-credential call or
decode fails with the underlying text `e`, `ListClusters` returns the nil list and the error
made of the failing stage's prefix followed by `e`, whatever the cluster's name. -/
theorem ListClusters_cluster_failure {Config : Type} (p : AzureProvider) (b : Backend Config)
    (cred : DefaultAzureCredential) (client : ManagedClustersClient)
    (before after : List (Except String Page)) (pre post : Page) (id name : String)
    (s : Stage) (e : String)
    (hc : b.NewDefaultAzureCredential = .ok cred)
    (hn : b.NewManagedClustersClient p.SubscriptionID cred = .ok client)
    (hpages : b.pages client =
      before ++ Except.ok (pre ++ some ⟨some id, some name⟩ :: post) :: after)
    (hb : ∀ pg ∈ before, ∃ ds, pg = Except.ok ds)
    (hs : ∀ d ∈ descriptors before ++ pre, StagesSucceed b client d)
    (hf : FailsWith b client id name s e) :
    (ListClusters p b).ret = .ret none (some (s.errorPrefix ++ e)) := by
  obtain ⟨out1, h1, _⟩ := pagerLoop_passes b client
    (Except.ok (pre ++ some ⟨some id, some name⟩ :: post) :: after) before []
    hb (fun d hd => hs d (List.mem_append_left _ hd))
  obtain ⟨out2, h2, _⟩ := rangeValue_passes b client (some ⟨some id, some name⟩ :: post) pre
    ([] ++ out1) (fun d hd => hs d (List.mem_append_right _ hd))
  obtain ⟨err, hg, hw⟩ := getKubeconfigForCluster_fails hf
  simp only [ListClusters, hc, hn, hpages]
  rw [h1]
  rcases hgk : getKubeconfigForCluster b client (some ⟨some id, some name⟩) with ⟨g, tr⟩
  rw [hgk] at hg
  simp only at hg
  subst hg
  have h3 : (rangeValue b client (pre ++ some ⟨some id, some name⟩ :: post) ([] ++ out1)).1 =
      .exit (.ret none (some (s.errorPrefix ++ e))) := by
    rw [h2]
    simp only [rangeValue, hgk, hw]
  rcases hrv : rangeValue b client (pre ++ some ⟨some id, some name⟩ :: post) ([] ++ out1)
    with ⟨f, tr2⟩
  rw [hrv] at h3
  simp only at h3
  subst h3
  simp only [pagerLoop, hrv]

/-- Witness of C4, amended: with clusters `alpha`, `beta` and then `gamma`, the refusal of
the admin-credential call for `beta` is the error of the whole call. -/
theorem ListClusters_cluster_failure_witness :
    (ListClusters (NewAzureProvider "sub-1") betaRefused).ret =
      .ret none (some (Stage.credentialFetch.errorPrefix ++ "AuthorizationFailed")) :=
  ListClusters_cluster_failure (NewAzureProvider "sub-1") betaRefused ⟨⟩ ⟨"sub-1"⟩
    [] [.ok [descriptor "rg2" "gamma"]] [descriptor "rg1" "alpha"] []
    (clusterID "rg1" "beta") "beta" .credentialFetch "AuthorizationFailed" rfl rfl rfl
    (by intro pg hpg; cases hpg)
    (by
      intro d hd
      simp only [descriptors, List.nil_append, List.mem_singleton] at hd
      subst hd
      exact ⟨_, _, _, _, rfl, rfl, rfl, Or.inr ⟨_, _, _, rfl, rfl⟩⟩)
    (Or.inr (Or.inl ⟨rfl, _, rfl, rfl⟩))

/-- A message made of a stage's prefix and an error text is read back as that stage. -/
theorem stageOfMessage_errorPrefix (s : Stage) (e : String) :
    stageOfMessage (s.errorPrefix ++ e) = some s := by
  cases s <;>
    simp [stageOfMessage, Stage.errorPrefix, String.data_append, List.find?, List.isPrefixOf]

theorem stagesSucceed_descriptor (b : Backend Bytes) (client : ManagedClustersClient)
    (rg name : String) (resource : Resource) (payload : CredentialResult)
    (later : List (Option CredentialResult)) (cfg : Bytes)
    (hp : b.ParseResourceID (clusterID rg name) = .ok resource)
    (hf : b.ListClusterAdminCredentials client resource.ResourceGroup name =
      .ok ⟨some (some payload :: later)⟩)
    (hl : b.Load payload.Value = .ok cfg) :
    ∀ d ∈ [descriptor rg name], StagesSucceed b client d := by
  intro d hd
  rw [List.mem_singleton] at hd
  subst hd
  exact ⟨_, _, resource, _, rfl, hp, hf, Or.inr ⟨payload, later, cfg, rfl, hl⟩⟩

theorem fetched_nil : ∀ pg ∈ ([] : List (Except String Page)), ∃ ds, pg = Except.ok ds :=
  fun pg hpg => absurd hpg (List.not_mem_nil pg)

theorem stagesSucceed_nil {Config : Type} (b : Backend Config) (client : ManagedClustersClient) :
    ∀ d ∈ ([] : Page), StagesSucceed b client d :=
  fun d hd => absurd hd (List.not_mem_nil d)

theorem secondPageFails_firstFailure :
    FirstFailure (NewAzureProvider "sub-1") secondPageFails .pageFetch
      "context deadline exceeded" :=
  Or.inr ⟨⟨⟩, rfl, Or.inr ⟨⟨"sub-1"⟩, rfl,
    [.ok [descriptor "rg1" "a"]], [.ok [descriptor "rg2" "c"]],
    (by intro pg hpg; rw [List.mem_singleton] at hpg; exact ⟨_, hpg⟩),
    stagesSucceed_descriptor secondPageFails ⟨"sub-1"⟩ "rg1" "a"
      ⟨"sub-1", "rg1", "Microsoft.ContainerService", "managedClusters", "a"⟩
      ⟨some "clusterAdmin", [97]⟩ [] [97] rfl rfl rfl,
    Or.inl ⟨rfl, rfl⟩⟩⟩

theorem badIdentifier_firstFailure :
    FirstFailure (NewAzureProvider "sub-1") badIdentifier .identifierParse
      "parsing failed for /subscriptions/sub-1/b. Invalid resource Id format" :=
  Or.inr ⟨⟨⟩, rfl, Or.inr ⟨⟨"sub-1"⟩, rfl, [], [], fetched_nil, stagesSucceed_nil _ _,
    Or.inr ⟨[descriptor "rg1" "a"], some ⟨some "/subscriptions/sub-1/b", none⟩, [], rfl,
      stagesSucceed_descriptor badIdentifier ⟨"sub-1"⟩ "rg1" "a"
        ⟨"sub-1", "rg1", "Microsoft.ContainerService", "managedClusters", "a"⟩
        ⟨some "clusterAdmin", [97]⟩ [] [97] rfl rfl rfl,
      ⟨_, none, rfl, Or.inl ⟨rfl, rfl⟩⟩⟩⟩⟩

theorem betaRefused_firstFailure :
    FirstFailure (NewAzureProvider "sub-1") betaRefused .credentialFetch "AuthorizationFailed" :=
  Or.inr ⟨⟨⟩, rfl, Or.inr ⟨⟨"sub-1"⟩, rfl, [], [.ok [descriptor "rg2" "gamma"]], fetched_nil,
    stagesSucceed_nil _ _,
    Or.inr ⟨[descriptor "rg1" "alpha"], descriptor "rg1" "beta", [], rfl,
      stagesSucceed_descriptor betaRefused ⟨"sub-1"⟩ "rg1" "alpha"
        ⟨"sub-1", "rg1", "Microsoft.ContainerService", "managedClusters", "alpha"⟩
        ⟨some "clusterAdmin", [97, 108, 112, 104, 97]⟩ [] [97, 108, 112, 104, 97] rfl rfl rfl,
      ⟨_, some "beta", rfl, Or.inr ⟨"beta", rfl, Or.inr (Or.inl ⟨rfl, _, rfl, rfl⟩)⟩⟩⟩⟩⟩

theorem badPayload_firstFailure :
    FirstFailure (NewAzureProvider "sub-1") badPayload .decode "empty kubeconfig" :=
  Or.inr ⟨⟨⟩, rfl, Or.inr ⟨⟨"sub-1"⟩, rfl, [], [.ok [descriptor "rg2" "c"]], fetched_nil,
    stagesSucceed_nil _ _,
    Or.inr ⟨[], descriptor "rg1" "a", [descriptor "rg1" "b"], rfl, stagesSucceed_nil _ _,
      ⟨_, some "a", rfl,
        Or.inr ⟨"a", rfl, Or.inr (Or.inr ⟨rfl, _, _, ⟨none, []⟩, [], rfl, rfl, rfl, rfl⟩)⟩⟩⟩⟩⟩

/-- C5 (the error identifies the stage): when the first failure of the backend, in
traversal order, is at stage `s` with underlying text `e`, `ListClusters` returns the nil
list and the message made of the prefix of `s` followed by `e`, stage by stage with the six
prefixes listed; conversely every error `ListClusters` returns is the prefix of the stage
of the backend's first failure followed by its text, and comes from the last call of the
record, before which no call failed; the stage can be read off the message, since a message
built from one stage's prefix is never built from another's. -/
theorem ListClusters_error_stage {Config : Type} (p : AzureProvider) (b : Backend Config) :
    (∀ s e, FirstFailure p b s e →
      (ListClusters p b).ret = .ret none (some (s.errorPrefix ++ e)) ∧
      stageOfMessage (s.errorPrefix ++ e) = some s) ∧
    (∀ e, FirstFailure p b .credentialResolution e →
      (ListClusters p b).ret = .ret none (some ("failed to obtain a credential: " ++ e))) ∧
    (∀ e, FirstFailure p b .clientConstruction e →
      (ListClusters p b).ret = .ret none (some ("failed to create client: " ++ e))) ∧
    (∀ e, FirstFailure p b .pageFetch e →
      (ListClusters p b).ret = .ret none (some ("failed to advance page: " ++ e))) ∧
    (∀ e, FirstFailure p b .identifierParse e →
      (ListClusters p b).ret = .ret none (some
        ("failed to get kubeconfig for cluster: failed to get cluster resource group: failed to parse cluster resource group from id: " ++ e))) ∧
    (∀ e, FirstFailure p b .credentialFetch e →
      (ListClusters p b).ret = .ret none (some
        ("failed to get kubeconfig for cluster: failed to get cluster credentials: " ++ e))) ∧
    (∀ e, FirstFailure p b .decode e →
      (ListClusters p b).ret = .ret none (some
        ("failed to get kubeconfig for cluster: failed to load kubeconfig: " ++ e))) ∧
    (∀ v m, (ListClusters p b).ret = .ret v (some m) →
      (∃ s e, FirstFailure p b s e ∧ m = s.errorPrefix ++ e) ∧
      (∃ call e, FailsAt (ListClusters p b).calls call e ∧ m = call.stage.errorPrefix ++ e ∧
        stageOfMessage m = some call.stage)) ∧
    (∀ s1 s2 e1 e2, Stage.errorPrefix s1 ++ e1 = Stage.errorPrefix s2 ++ e2 → s1 = s2) ∧
    Stage.credentialResolution.errorPrefix = "failed to obtain a credential: " ∧
    Stage.clientConstruction.errorPrefix = "failed to create client: " ∧
    Stage.pageFetch.errorPrefix = "failed to advance page: " ∧
    Stage.identifierParse.errorPrefix =
      "failed to get kubeconfig for cluster: failed to get cluster resource group: failed to parse cluster resource group from id: " ∧
    Stage.credentialFetch.errorPrefix =
      "failed to get kubeconfig for cluster: failed to get cluster credentials: " ∧
    Stage.decode.errorPrefix = "failed to get kubeconfig for cluster: failed to load kubeconfig: " := by
  have fwd : ∀ s e, FirstFailure p b s e →
      (ListClusters p b).ret = .ret none (some (s.errorPrefix ++ e)) := by
    intro s e h
    rcases h with ⟨rfl, hc⟩ | ⟨cred, hc, ⟨rfl, hn⟩ | ⟨client, hn, hpg⟩⟩
    · simp only [ListClusters, hc, Stage.errorPrefix]
    · simp only [ListClusters, hc, hn, Stage.errorPrefix]
    · simp only [ListClusters, hc, hn]
      exact pagerLoop_fails b client (b.pages client) s e [] hpg
  refine ⟨fun s e h => ⟨fwd s e h, stageOfMessage_errorPrefix s e⟩, fun e h => fwd _ e h,
    fun e h => fwd _ e h, fun e h => fwd _ e h, fun e h => fwd _ e h, fun e h => fwd _ e h,
    fun e h => fwd _ e h, ?_, ?_, rfl, rfl, rfl, rfl, rfl, rfl⟩
  · intro v m h
    constructor
    · cases hc : b.NewDefaultAzureCredential with
      | error e =>
        simp only [ListClusters, hc, GoResult.ret.injEq, Option.some.injEq] at h
        exact ⟨.credentialResolution, e, Or.inl ⟨rfl, hc⟩, h.2.symm⟩
      | ok cred =>
        cases hn : b.NewManagedClustersClient p.SubscriptionID cred with
        | error e =>
          simp only [ListClusters, hc, hn, GoResult.ret.injEq, Option.some.injEq] at h
          exact ⟨.clientConstruction, e, Or.inr ⟨cred, hc, Or.inl ⟨rfl, hn⟩⟩, h.2.symm⟩
        | ok client =>
          simp only [ListClusters, hc, hn] at h
          obtain ⟨s, e, hpg, hm⟩ := pagerLoop_error_inv b client (b.pages client) [] v m h
          exact ⟨s, e, Or.inr ⟨cred, hc, Or.inr ⟨client, hn, hpg⟩⟩, hm⟩
    · have ht := ListClusters_traced p b
      rw [h] at ht
      obtain ⟨_, call, e, hf, hm⟩ := ht
      have hm2 : m = call.stage.errorPrefix ++ e := hm
      exact ⟨call, e, hf, hm2, by rw [hm2]; exact stageOfMessage_errorPrefix _ _⟩
  · intro s1 s2 e1 e2 heq
    have h1 := stageOfMessage_errorPrefix s1 e1
    rw [heq, stageOfMessage_errorPrefix s2 e2] at h1
    exact (Option.some.inj h1).symm

/-- Witness of C5: one backend per stage, each with its first failure at that stage, and
the message `ListClusters` returns for it. -/
theorem ListClusters_error_stage_witness :
    (ListClusters (NewAzureProvider "sub-1") noCredential).ret =
        .ret none (some "failed to obtain a credential: no credential source") ∧
      (ListClusters (NewAzureProvider "sub-1") noClient).ret =
        .ret none (some "failed to create client: invalid endpoint") ∧
      (ListClusters (NewAzureProvider "sub-1") secondPageFails).ret =
        .ret none (some "failed to advance page: context deadline exceeded") ∧
      (ListClusters (NewAzureProvider "sub-1") badIdentifier).ret =
        .ret none (some "failed to get kubeconfig for cluster: failed to get cluster resource group: failed to parse cluster resource group from id: parsing failed for /subscriptions/sub-1/b. Invalid resource Id format") ∧
      (ListClusters (NewAzureProvider "sub-1") betaRefused).ret =
        .ret none (some "failed to get kubeconfig for cluster: failed to get cluster credentials: AuthorizationFailed") ∧
      (ListClusters (NewAzureProvider "sub-1") badPayload).ret =
        .ret none (some "failed to get kubeconfig for cluster: failed to load kubeconfig: empty kubeconfig") :=
  ⟨((ListClusters_error_stage (NewAzureProvider "sub-1") noCredential).1 .credentialResolution
      "no credential source" (Or.inl ⟨rfl, rfl⟩)).1,
    ((ListClusters_error_stage (NewAzureProvider "sub-1") noClient).1 .clientConstruction
      "invalid endpoint" (Or.inr ⟨⟨⟩, rfl, Or.inl ⟨rfl, rfl⟩⟩)).1,
    ((ListClusters_error_stage (NewAzureProvider "sub-1") secondPageFails).1 .pageFetch
      "context deadline exceeded" secondPageFails_firstFailure).1,
    ((ListClusters_error_stage (NewAzureProvider "sub-1") badIdentifier).1 .identifierParse
      "parsing failed for /subscriptions/sub-1/b. Invalid resource Id format"
      badIdentifier_firstFailure).1,
    ((ListClusters_error_stage (NewAzureProvider "sub-1") betaRefused).1 .credentialFetch
      "AuthorizationFailed" betaRefused_firstFailure).1,
    ((ListClusters_error_stage (NewAzureProvider "sub-1") badPayload).1 .decode
      "empty kubeconfig" badPayload_firstFailure).1⟩

/-- A string without the resource-group segment is rejected by the grammar. -/
theorem ParseResourceID_missingScope (resourceID : String) (h : MissingScope resourceID) :
    ∃ e, ParseResourceID resourceID = .error e := by
  unfold MissingScope at h
  unfold ParseResourceID
  split
  · rename_i root k1 sub k2 rg k3 provider type name heq
    split
    · rename_i hc
      rw [heq] at h
      simp [hasScope, hc.2.2.2.1, hc.2.2.2.2.1] at h
    · exact ⟨_, rfl⟩
  · exact ⟨_, rfl⟩

/-- A well-formed identifier is accepted by the grammar, with its parts. -/
theorem ParseResourceID_resourceIDOf (sub rg provider type name : String)
    (h1 : IsSegment sub) (h2 : IsSegment rg) (h3 : IsSegment provider) (h4 : IsSegment type)
    (h5 : IsSegment name) :
    ParseResourceID (resourceIDOf sub rg provider type name) =
      .ok ⟨sub, rg, provider, type, name⟩ := by
  unfold ParseResourceID
  rw [segments_resourceIDOf sub rg provider type name h1.2 h2.2 h3.2 h4.2 h5.2]
  simp [h1.1, h2.1, h3.1, h4.1, h5.1]

/-- C6 (totality of parsing): `aksClusterResourceGroup` is a function of the identifier
alone, which returns the `ResourceGroup` field of the parsed identifier on success and the
empty scope with a wrapped error on failure, so that an error never comes with a scope; for
every well-formed identifier
`/subscriptions/<sub>/resourceGroups/<rg>/providers/<provider>/<type>/<name>` it returns
exactly `<rg>` and no error; for every string missing the resource-group segment it returns
an error and the empty scope. -/
theorem aksClusterResourceGroup_scope :
    (∀ (parse : String → Except String Resource) (id : String) (resource : Resource),
      parse id = .ok resource →
      aksClusterResourceGroup parse id = (resource.ResourceGroup, none)) ∧
    (∀ (parse : String → Except String Resource) (id err : String),
      parse id = .error err →
      aksClusterResourceGroup parse id =
        ("", some ("failed to parse cluster resource group from id: " ++ err))) ∧
    (∀ (parse : String → Except String Resource) (id e : String),
      (aksClusterResourceGroup parse id).2 = some e → (aksClusterResourceGroup parse id).1 = "") ∧
    (∀ sub rg provider type name : String,
      IsSegment sub → IsSegment rg → IsSegment provider → IsSegment type → IsSegment name →
      aksClusterResourceGroup ParseResourceID (resourceIDOf sub rg provider type name) =
        (rg, none)) ∧
    (∀ id : String, MissingScope id →
      ∃ e, aksClusterResourceGroup ParseResourceID id = ("", some e)) := by
  refine ⟨?_, ?_, ?_, ?_, ?_⟩
  · intro parse id resource h
    simp only [aksClusterResourceGroup, h]
  · intro parse id err h
    simp only [aksClusterResourceGroup, h]
  · intro parse id e h
    unfold aksClusterResourceGroup at h ⊢
    cases hp : parse id with
    | error err => rfl
    | ok r => rw [hp] at h; cases h
  · intro sub rg provider type name h1 h2 h3 h4 h5
    simp only [aksClusterResourceGroup, ParseResourceID_resourceIDOf sub rg provider type name
      h1 h2 h3 h4 h5]
  · intro id h
    obtain ⟨e, he⟩ := ParseResourceID_missingScope id h
    exact ⟨"failed to parse cluster resource group from id: " ++ e, by
      simp only [aksClusterResourceGroup, he]⟩

/-- Witness of C6: the resource group of a managed-cluster identifier, and the rejection of
an identifier without resource group. -/
theorem aksClusterResourceGroup_scope_witness :
    aksClusterResourceGroup ParseResourceID
        "/subscriptions/sub-1/resourceGroups/rg1/providers/Microsoft.ContainerService/managedClusters/a" =
        ("rg1", none) ∧
      ∃ e, aksClusterResourceGroup ParseResourceID
        "/subscriptions/sub-1/providers/Microsoft.ContainerService/managedClusters/a" =
          ("", some e) :=
  ⟨aksClusterResourceGroup_scope.2.2.2.1 "sub-1" "rg1" "Microsoft.ContainerService"
      "managedClusters" "a" (by decide) (by decide) (by decide) (by decide) (by decide),
    aksClusterResourceGroup_scope.2.2.2.2 _ (by decide)⟩

/-- The receiver is the same after `ListClusters` as before. -/
theorem ListClusters_receiver {Config : Type} (p : AzureProvider) (b : Backend Config) :
    (ListClusters p b).receiver = p := by
  unfold ListClusters
  split
  · rfl
  · split <;> rfl

/-- C7 (idempotence): against an unchanged backend, a second invocation of `ListClusters`
returns what the first returned (the same list in the same order, or the same error) after
the same calls; the provider's only state, `SubscriptionID`, is the value given to
`NewAzureProvider`, and no invocation changes it. -/
theorem ListClusters_idempotent {Config : Type} (subscriptionID : String) (p : AzureProvider)
    (b : Backend Config) :
    (ListClusters (ListClusters p b).receiver b).ret = (ListClusters p b).ret ∧
    (ListClusters (ListClusters p b).receiver b).calls = (ListClusters p b).calls ∧
    (ListClusters p b).receiver = p ∧
    (ListClusters (ListClusters p b).receiver b).receiver = p ∧
    (NewAzureProvider subscriptionID).SubscriptionID = subscriptionID ∧
    (ListClusters (NewAzureProvider subscriptionID) b).receiver.SubscriptionID =
      subscriptionID := by
  rw [ListClusters_receiver p b, ListClusters_receiver p b, ListClusters_receiver]
  exact ⟨rfl, rfl, rfl, rfl, rfl, rfl⟩

/-- C8 (only the first payload is used): for a descriptor whose identifier parses and whose
admin-credential response has a first payload, `getKubeconfigForCluster` returns the
decoding of the first payload's bytes, or the decode failure as its error; a response with
the same first payload and other later payloads gives the same result. -/
theorem getKubeconfigForCluster_first_payload {Config : Type} (b b2 : Backend Config)
    (client : ManagedClustersClient) (id name : String) (resource : Resource)
    (first : CredentialResult) (rest rest2 : List (Option CredentialResult))
    (hp : b.ParseResourceID id = .ok resource)
    (hf : b.ListClusterAdminCredentials client resource.ResourceGroup name =
      .ok ⟨some (some first :: rest)⟩)
    (hp2 : b2.ParseResourceID = b.ParseResourceID) (hl2 : b2.Load = b.Load)
    (hf2 : b2.ListClusterAdminCredentials client resource.ResourceGroup name =
      .ok ⟨some (some first :: rest2)⟩) :
    (getKubeconfigForCluster b client (some ⟨some id, some name⟩)).1 =
      (match b.Load first.Value with
        | .ok kubeConfig => .ret (some kubeConfig) none
        | .error e => .ret none (some ("failed to load kubeconfig: " ++ e))) ∧
    (getKubeconfigForCluster b2 client (some ⟨some id, some name⟩)).1 =
      (getKubeconfigForCluster b client (some ⟨some id, some name⟩)).1 := by
  have hp3 : b2.ParseResourceID id = .ok resource := by rw [hp2, hp]
  constructor
  · cases hl : b.Load first.Value <;>
      simp only [getKubeconfigForCluster, aksClusterResourceGroup, hp, hf, hl]
  · cases hl : b.Load first.Value with
    | error e =>
      have hl3 : b2.Load first.Value = .error e := by rw [hl2, hl]
      simp only [getKubeconfigForCluster, aksClusterResourceGroup, hp, hf, hl, hp3, hf2, hl3]
    | ok cfg =>
      have hl3 : b2.Load first.Value = .ok cfg := by rw [hl2, hl]
      simp only [getKubeconfigForCluster, aksClusterResourceGroup, hp, hf, hl, hp3, hf2, hl3]

/-- Witness of C8: a response with one payload and a response with the same payload followed
by two more entries give the same kubeconfig, the decoding of the first payload. -/
theorem getKubeconfigForCluster_first_payload_witness :
    (getKubeconfigForCluster (morePayloads []) ⟨"sub-1"⟩ (descriptor "rg1" "a")).1 =
        .ret (some [97]) none ∧
      (getKubeconfigForCluster (morePayloads [some ⟨none, [1, 2]⟩, none]) ⟨"sub-1"⟩
          (descriptor "rg1" "a")).1 =
        (getKubeconfigForCluster (morePayloads []) ⟨"sub-1"⟩ (descriptor "rg1" "a")).1 :=
  getKubeconfigForCluster_first_payload (morePayloads [])
    (morePayloads [some ⟨none, [1, 2]⟩, none]) ⟨"sub-1"⟩ (clusterID "rg1" "a") "a"
    ⟨"sub-1", "rg1", "Microsoft.ContainerService", "managedClusters", "a"⟩
    ⟨some "clusterAdmin", [97]⟩ [] [some ⟨none, [1, 2]⟩, none] rfl rfl rfl rfl rfl

/-- A record that ends at its one failing call has nothing after a failing call. -/
theorem failsAt_last {calls pre post : List Event} {ev : Event} {call : Call} {e : String}
    (hf : FailsAt calls call e) (hs : calls = pre ++ ev :: post) (hne : ev.err ≠ none) :
    post = [] := by
  obtain ⟨pre2, hc, hclean⟩ := hf
  rcases List.eq_nil_or_concat post with hnil | ⟨post2, last, hpost⟩
  · exact hnil
  · exfalso
    rw [hs, hpost, List.concat_eq_append] at hc
    have hc2 : (pre ++ ev :: post2) ++ [last] = pre2 ++ [⟨call, some e⟩] := by
      rw [← hc]; simp
    have hpre := List.append_inj_left' hc2 rfl
    exact hne (hclean ev (by rw [← hpre]; simp))

/-- C9 (abort at the first failure): in the record of the calls of `ListClusters` nothing
follows a failing call, and the call then returns an error; a returned error comes from the
last call of the record, before which no call failed; and a call that returns a list issued
no failing call and exactly one admin-credential call per descriptor, in listing order,
with the descriptor's parsed resource group and name. -/
theorem ListClusters_stops_at_failure {Config : Type} (p : AzureProvider) (b : Backend Config) :
    (∀ pre ev post, (ListClusters p b).calls = pre ++ ev :: post → ev.err ≠ none →
      post = [] ∧ ∃ m, (ListClusters p b).ret = .ret none (some m)) ∧
    (∀ v m, (ListClusters p b).ret = .ret v (some m) →
      ∃ call e, FailsAt (ListClusters p b).calls call e) ∧
    (∀ cred client clusters, b.NewDefaultAzureCredential = .ok cred →
      b.NewManagedClustersClient p.SubscriptionID cred = .ok client →
      (ListClusters p b).ret = .ret (some clusters) none →
      Clean (ListClusters p b).calls ∧
      (credentialCalls (ListClusters p b).calls).map some =
        (descriptors (b.pages client)).map (credentialCallFor b)) := by
  have ht := ListClusters_traced p b
  refine ⟨?_, ?_, ?_⟩
  · intro pre ev post hs hne
    have hmem : ev ∈ (ListClusters p b).calls := by rw [hs]; simp
    rcases hr : (ListClusters p b).ret with ⟨v, _ | m⟩ | msg
    · rw [hr] at ht
      exact absurd (ht ev hmem) hne
    · rw [hr] at ht
      obtain ⟨hv, call, e, hf, _⟩ := ht
      exact ⟨failsAt_last hf hs hne, m, by rw [hv]⟩
    · rw [hr] at ht
      exact absurd (ht ev hmem) hne
  · intro v m hr
    rw [hr] at ht
    obtain ⟨_, call, e, hf, _⟩ := ht
    exact ⟨call, e, hf⟩
  · intro cred client clusters hc hn hr
    rw [hr] at ht
    refine ⟨ht, ?_⟩
    simp only [ListClusters, hc, hn] at hr ⊢
    have h := pagerLoop_calls b client (b.pages client) [] clusters hr
    rw [← h]
    simp [credentialCalls, Call.stage]

/-- Witness of C9: after the refusal of the admin-credential call for `beta` no call is
issued, neither for `beta` nor for `gamma`; and the successful listing of `a`, `b`, `c`
issues the three admin-credential calls in order. -/
theorem ListClusters_stops_at_failure_witness :
    (ListClusters (NewAzureProvider "sub-1") betaRefused).calls.getLast? =
        some ⟨.listClusterAdminCredentials "rg1" "beta", some "AuthorizationFailed"⟩ ∧
      (credentialCalls (ListClusters (NewAzureProvider "sub-1") twoPages).calls).map some =
        [some (.listClusterAdminCredentials "rg1" "a"),
          some (.listClusterAdminCredentials "rg1" "b"),
          some (.listClusterAdminCredentials "rg2" "c")] :=
  ⟨by decide,
    ((ListClusters_stops_at_failure (NewAzureProvider "sub-1") twoPages).2.2 ⟨⟩ ⟨"sub-1"⟩
      [⟨"a", some [97]⟩, ⟨"b", some [98]⟩, ⟨"c", some [99]⟩] rfl rfl (by decide)).2⟩

/-- C10 (totality): when every descriptor of every page is present with a present ID and a
present Name, and the payload list of every admin-credential response is absent or has a
present first entry, `ListClusters` returns a list or an error and does not panic. -/
theorem ListClusters_total {Config : Type} (p : AzureProvider) (b : Backend Config)
    (h : WellFormed b) :
    ∃ v err, (ListClusters p b).ret = .ret v err := by
  cases hc : b.NewDefaultAzureCredential with
  | error e => exact ⟨_, _, by simp only [ListClusters, hc]; rfl⟩
  | ok cred =>
    cases hn : b.NewManagedClustersClient p.SubscriptionID cred with
    | error e => exact ⟨_, _, by simp only [ListClusters, hc, hn]; rfl⟩
    | ok client =>
      have hnp := pagerLoop_no_panic b client (h.2 client) (b.pages client) [] (h.1 client)
      simp only [ListClusters, hc, hn]
      rcases hr : (pagerLoop b client (b.pages client) []).1 with ⟨v, err⟩ | msg
      · exact ⟨v, err, rfl⟩
      · exact absurd hr (hnp msg)

theorem twoPages_wellFormed : WellFormed twoPages := by
  constructor
  · intro client page hpage d hd
    simp only [twoPages, List.mem_cons, List.mem_singleton, List.not_mem_nil, or_false,
      Except.ok.injEq] at hpage
    rcases hpage with rfl | rfl
    · simp only [List.mem_cons, List.mem_singleton, List.not_mem_nil, or_false] at hd
      rcases hd with rfl | rfl
      · exact ⟨_, _, rfl⟩
      · exact ⟨_, _, rfl⟩
    · simp only [List.mem_singleton] at hd
      subst hd
      exact ⟨_, _, rfl⟩
  · intro client rg name resp hresp
    simp only [twoPages, Except.ok.injEq] at hresp
    subst hresp
    exact Or.inr ⟨_, _, rfl⟩

/-- Witness of C10: the backend with pages `a`, `b` and then `c` meets the precondition, and
`ListClusters` returns. -/
theorem ListClusters_total_witness :
    WellFormed twoPages ∧
      ∃ v err, (ListClusters (NewAzureProvider "sub-1") twoPages).ret = .ret v err :=
  ⟨twoPages_wellFormed, ListClusters_total (NewAzureProvider "sub-1") twoPages twoPages_wellFormed⟩

end Azure
